import Mathlib

/-!
Verification of the Usage Report Generator of `aws-bedrock-monitoring`
(`scripts/6-usage-report.py`), against its natural-language specification.

Python floats are modelled as exact rationals (`ℚ`), Python ints as `ℤ`.
`round(x, n)` is modelled as round-half-to-even (`rhe`) on exact rationals,
`int(x)` as truncation toward zero, and `str.lower()` on the ASCII fragment
that the mode strings use.
-/

namespace UsageReport6

/-- Round half to even of an exact rational to an integer: the idealisation of
Python's builtin `round` on our exact-rational model of floats. -/
def rhe (x : ℚ) : ℤ :=
  if Int.fract x < 1/2 then ⌊x⌋
  else if 1/2 < Int.fract x then ⌊x⌋ + 1
  else if ⌊x⌋ % 2 = 0 then ⌊x⌋ else ⌊x⌋ + 1

/-- Python `round(x, n)` for `n ≥ 0` digits, on the exact-rational model. -/
def pyRound (x : ℚ) (n : ℕ) : ℚ := (rhe (x * 10 ^ n) : ℚ) / 10 ^ n

/-- Python `int(x)` on a float: truncation toward zero. -/
def pyInt (x : ℚ) : ℤ := if 0 ≤ x then ⌊x⌋ else ⌈x⌉

/-- ASCII lowering of one character (`str.lower` restricted to ASCII, which is
all the formatter's mode strings exercise). -/
def lowerChar (c : Char) : Char :=
  if 65 ≤ c.toNat ∧ c.toNat ≤ 90 then Char.ofNat (c.toNat + 32) else c

/-- Python `s.lower()` on the ASCII fragment. -/
def pyLower (s : String) : String := String.mk (s.data.map lowerChar)

/-- `ModelUsage` dataclass (script lines 29-41): per-model usage counters. -/
structure ModelUsage where
  invocations : ℤ := 0
  input_tokens : ℤ := 0
  output_tokens : ℤ := 0
  total_latency : ℚ := 0
  error_count : ℤ := 0
deriving DecidableEq

/-- `ModelUsage.avg_latency` (lines 38-41):
`total_latency / invocations if invocations > 0 else 0.0`. -/
def ModelUsage.avg_latency (u : ModelUsage) : ℚ :=
  if 0 < u.invocations then u.total_latency / (u.invocations : ℚ) else 0

/-- `BedrockPricing.PRICING` (lines 58-75): per-1000-token input/output USD
prices, keyed by model id. -/
def PRICING : List (String × (ℚ × ℚ)) :=
  [("anthropic.claude-3-sonnet-20240229-v1:0", ((0.003 : ℚ), (0.015 : ℚ))),
   ("anthropic.claude-3-opus-20240229-v1:0", ((0.015 : ℚ), (0.075 : ℚ))),
   ("anthropic.claude-3-haiku-20240307-v1:0", ((0.00025 : ℚ), (0.00125 : ℚ))),
   ("anthropic.claude-instant-v1", ((0.0008 : ℚ), (0.0024 : ℚ)))]

/-- `BedrockPricing.calculate_cost` (lines 77-89): per-model cost from token
counts; unknown model ids fall back to the Sonnet entry. -/
def calculate_cost (model_id : String) (input_tokens output_tokens : ℤ) : ℚ :=
  let pricing : ℚ × ℚ :=
    match PRICING.find? (fun p => p.1 == model_id) with
    | some p => p.2
    | none => ((0.003 : ℚ), (0.015 : ℚ))
  (input_tokens : ℚ) / 1000 * pricing.1 + (output_tokens : ℚ) / 1000 * pricing.2

/-- `report.period` sub-dictionary. -/
structure Period where
  startTime : String
  endTime : String
  durationHours : ℤ
deriving DecidableEq

/-- `report.summary` sub-dictionary. -/
structure Summary where
  totalInvocations : ℤ
  totalInputTokens : ℤ
  totalOutputTokens : ℤ
  estimatedCost : ℚ
deriving DecidableEq

/-- One value of the `report.by_model` dictionary (lines 316-323). -/
structure ByModelEntry where
  invocations : ℤ
  inputTokens : ℤ
  outputTokens : ℤ
  cost : ℚ
  avgLatency : ℚ
  errorCount : ℤ
deriving DecidableEq

/-- `report.projections` sub-dictionary. -/
structure Projections where
  monthlyInvocations : ℤ
  monthlyCost : ℚ
deriving DecidableEq

/-- `report.performance` sub-dictionary. -/
structure Performance where
  avgLatency : ℚ
  p99Latency : ℚ
  errorCount : ℤ
  errorRate : ℚ
deriving DecidableEq

/-- `UsageReport` dataclass (lines 44-51). `by_model` keeps the Python dict's
insertion order as an association list. -/
structure UsageReport where
  period : Period
  summary : Summary
  by_model : List (String × ByModelEntry)
  projections : Projections
  performance : Performance
deriving DecidableEq

/-- `UsageReportGenerator.generate_report` (lines 276-351), starting after the
CloudWatch fetch: the report computed from the aggregated per-model usage map
(`model_usage`, in dict insertion order), the window length in hours, and the
already-formatted period timestamps. -/
def generate_report (model_usage : List (String × ModelUsage)) (hours : ℤ)
    (startTime endTime : String) : UsageReport :=
  let total_invocations : ℤ := (model_usage.map (fun mu => mu.2.invocations)).sum
  let total_input_tokens : ℤ := (model_usage.map (fun mu => mu.2.input_tokens)).sum
  let total_output_tokens : ℤ := (model_usage.map (fun mu => mu.2.output_tokens)).sum
  let total_cost : ℚ :=
    (model_usage.map (fun mu => calculate_cost mu.1 mu.2.input_tokens mu.2.output_tokens)).sum
  let all_latencies : List ℚ :=
    (model_usage.filter (fun mu => 0 < mu.2.invocations)).map (fun mu => mu.2.total_latency)
  let avg_latency : ℚ :=
    if 0 < total_invocations then
      (model_usage.map (fun mu => mu.2.avg_latency * (mu.2.invocations : ℚ))).sum
        / (total_invocations : ℚ)
    else 0
  let total_errors : ℤ := (model_usage.map (fun mu => mu.2.error_count)).sum
  let error_rate : ℚ :=
    if 0 < total_invocations then (total_errors : ℚ) / (total_invocations : ℚ) * 100 else 0
  let p99_latency : ℚ := match all_latencies with | [] => 0 | x :: xs => xs.foldl max x
  let hours_in_month : ℤ := 24 * 30
  let projection_multiplier : ℚ :=
    if 0 < hours then (hours_in_month : ℚ) / (hours : ℚ) else 0
  let monthly_invocations : ℤ := pyInt ((total_invocations : ℚ) * projection_multiplier)
  let monthly_cost : ℚ := total_cost * projection_multiplier
  let by_model : List (String × ByModelEntry) := model_usage.map (fun mu =>
    (mu.1,
      { invocations := mu.2.invocations
        inputTokens := mu.2.input_tokens
        outputTokens := mu.2.output_tokens
        cost := pyRound (calculate_cost mu.1 mu.2.input_tokens mu.2.output_tokens) 4
        avgLatency := pyRound mu.2.avg_latency 3
        errorCount := mu.2.error_count }))
  { period := { startTime := startTime, endTime := endTime, durationHours := hours }
    summary :=
      { totalInvocations := total_invocations
        totalInputTokens := total_input_tokens
        totalOutputTokens := total_output_tokens
        estimatedCost := pyRound total_cost 4 }
    by_model := by_model
    projections :=
      { monthlyInvocations := monthly_invocations
        monthlyCost := pyRound monthly_cost 2 }
    performance :=
      { avgLatency := pyRound avg_latency 3
        p99Latency := pyRound p99_latency 3
        errorCount := total_errors
        errorRate := pyRound error_rate 2 } }

/-! ### CLI argument validation (`parse_arguments` / `validate_arguments` / `main`) -/

/-- Parsed command-line arguments (lines 422-461). `region = none` models an
absent `--region`. -/
structure Args where
  hours : ℤ
  region : Option String
  output : String
  validate_only : Bool
deriving DecidableEq

/-- `utils.validate_aws_region` (utils.py lines 73-88), the ASCII regex
`^[a-z]{2}-[a-z]+-\d+$`: two lowercase letters, a dash, one or more lowercase
letters, a dash, one or more digits. -/
def validate_aws_region (region : String) : Bool :=
  match region.data with
  | a :: b :: rest =>
    a.isLower && b.isLower &&
      (match rest with
       | c :: rest2 =>
         c = '-' &&
           (let letters := rest2.takeWhile (fun ch => ch.isLower)
            let after := rest2.dropWhile (fun ch => ch.isLower)
            decide (letters ≠ []) &&
              match after with
              | d :: rest3 =>
                d = '-' && decide (rest3 ≠ []) && rest3.all (fun ch => ch.isDigit)
              | [] => false)
       | [] => false)
  | _ => false

/-- `validate_arguments` (lines 464-478): the list of validation error
messages, in the order the script appends them. -/
def validate_arguments (args : Args) : List String :=
  (if args.hours ≤ 0 then ["Hours must be a positive integer"]
   else if 8760 < args.hours then ["Hours cannot exceed 8760 (1 year)"]
   else [])
  ++ (match args.region with
      | some r => if r ≠ "" ∧ ¬ validate_aws_region r then
          ["Invalid AWS region format: " ++ r] else []
      | none => [])

/-- The decision `main` (lines 481-507) takes before touching AWS. -/
inductive MainOutcome where
  /-- Validation errors printed to stderr, `sys.exit(1)`, no AWS client is
  created and no metric query is attempted. -/
  | exitValidation (errors : List String)
  /-- `--validate-only` passed and validation succeeded: exit without AWS. -/
  | validateOnlyPass
  /-- Validation passed: the generator is constructed and the report runs. -/
  | runReport (hours : ℤ)
deriving DecidableEq

/-- Control flow of `main` (lines 481-507) up to the first AWS interaction. -/
def mainDecision (args : Args) : MainOutcome :=
  let errs := validate_arguments args
  if errs ≠ [] then .exitValidation errs
  else if args.validate_only then .validateOnlyPass
  else .runReport args.hours

/-! ### Metrics aggregation (`get_metrics_data` and helpers)

The CloudWatch / CloudWatch-Logs backend is modelled as an oracle of
independent call outcomes; `Except.error` stands for a raised
`botocore ClientError` (the failure mode of every boto3 query the script
makes). -/

/-- One `get_query_results` response: the `status` string and the result rows,
each row a list of `(field, value)` pairs with the value already read as a
number (the script applies `int(float(...))` to it). -/
structure PollResult where
  status : String
  results : List (List (String × ℚ))

/-- Outcomes of the external queries issued during one aggregation pass.
`metric_sum metric model` is the `Datapoints` sum list of one
`get_metric_statistics` call; `poll qid n` is the n-th (1-based)
`get_query_results` attempt. -/
structure MetricsOracle where
  list_models : Except String (List String)
  metric_sum : String → String → Except String (List ℚ)
  start_query : String → Except String String
  poll : String → ℕ → Except String PollResult

/-- `_get_available_models` (lines 172-191): model-id discovery; a
`ClientError` degrades to the empty list. -/
def get_available_models (o : MetricsOracle) : List String :=
  match o.list_models with
  | .ok models => models
  | .error _ => []

/-- `_get_metric_sum` (lines 193-216): sum the datapoints and truncate to int;
a `ClientError` degrades to `0` for this metric only. -/
def get_metric_sum (o : MetricsOracle) (metric_name model_id : String) : ℤ :=
  match o.metric_sum metric_name model_id with
  | .ok points => pyInt points.sum
  | .error _ => 0

/-- Row scan of a `Complete` log-query response (lines 251-256): the first
`error_count` field, truncated to int; `0` if absent. -/
def extract_error_count (rows : List (List (String × ℚ))) : ℤ :=
  match (rows.flatMap id).find? (fun f => f.1 == "error_count") with
  | some f => pyInt f.2
  | none => 0

/-- The 10-second poll loop of `_get_error_count` (lines 238-266), entered with
`wait_time` seconds already waited: `Complete` extracts, `Failed` yields `0`,
a `ClientError` or any other status retries, and the 10-second ceiling yields
`0`. -/
def error_count_loop (o : MetricsOracle) (qid : String) (wait_time : ℕ) : ℤ :=
  if wait_time < 10 then
    match o.poll qid (wait_time + 1) with
    | .error _ => error_count_loop o qid (wait_time + 1)
    | .ok res =>
      if res.status = "Complete" then extract_error_count res.results
      else if res.status = "Failed" then 0
      else error_count_loop o qid (wait_time + 1)
  else 0
termination_by 10 - wait_time

/-- `_get_error_count` (lines 218-274): start the log query and poll; any
failure or timeout degrades to `0`. -/
def get_error_count (o : MetricsOracle) (model_id : String) : ℤ :=
  match o.start_query model_id with
  | .ok qid => error_count_loop o qid 0
  | .error _ => 0

/-- Body of the per-model loop of `get_metrics_data` (lines 134-164): each
metric is fetched independently with its own failure fallback; the latency sum
is converted from milliseconds to seconds. -/
def aggregate_model (o : MetricsOracle) (model_id : String) : ModelUsage :=
  { invocations := get_metric_sum o "Invocations" model_id
    input_tokens := get_metric_sum o "InputTokenCount" model_id
    output_tokens := get_metric_sum o "OutputTokenCount" model_id
    total_latency := (get_metric_sum o "InvocationLatency" model_id : ℚ) / 1000
    error_count := get_error_count o model_id }

/-- `get_metrics_data` (lines 122-170): the usage mapping, keeping only models
with `invocations > 0`. -/
def get_metrics_data (o : MetricsOracle) : List (String × ModelUsage) :=
  ((get_available_models o).map (fun mid => (mid, aggregate_model o mid))).filter
    (fun mu => 0 < mu.2.invocations)

/-- The `try` body of `get_metrics_data` written in the exception monad: the
per-call `except` handlers are local (inside `get_available_models`,
`get_metric_sum` and `get_error_count`), so an error propagates to the outer
handler of lines 166-169 only if some step itself raises. -/
def get_metrics_data_body (o : MetricsOracle) : Except String (List (String × ModelUsage)) := do
  let models := get_available_models o
  let pairs ← models.mapM (fun mid => pure (mid, aggregate_model o mid))
  pure (pairs.filter (fun mu => 0 < mu.2.invocations))

/-! ### Structured (JSON) serialization

`format_report` in `'json'` mode runs `json.dumps(asdict(report), indent=2)`.
The serialized value is modelled by a JSON tree (`Json`) covering exactly the
shapes `asdict(report)` produces: objects, strings, ints, and floats.  A float
is carried as a decimal mantissa/exponent pair `num m e` denoting `m / 10^e`,
the way `repr` prints the report's (decimally rounded) float fields. -/

inductive Json where
  | str : String → Json
  | jint : ℤ → Json
  | num : ℤ → ℕ → Json
  | obj : List (String × Json) → Json

/-- Opening brace character. -/
def lbrace : Char := '\x7b'

/-- Closing brace character. -/
def rbrace : Char := '\x7d'

/-- Big-endian decimal digit characters of a natural number. -/
def renderNat (n : ℕ) : List Char :=
  if n = 0 then ['0']
  else (Nat.digits 10 n).reverse.map (fun d => Char.ofNat (48 + d))

/-- Python `str` of an int. -/
def renderInt (i : ℤ) : List Char :=
  (if i < 0 then ['-'] else []) ++ renderNat i.natAbs

/-- Fractional digit block: exactly `e` digits of `n < 10^e`, left-padded with
zeros. -/
def padFrac (e : ℕ) (n : ℕ) : List Char :=
  List.replicate (e - (renderNat n).length) '0' ++ renderNat n

/-- Decimal rendering of the float `m / 10^e` (positional, as `repr` prints
the report's rounded fields). -/
def renderFloat (m : ℤ) (e : ℕ) : List Char :=
  (if m < 0 then ['-'] else []) ++
    renderNat (m.natAbs / 10 ^ e) ++ '.' :: padFrac e (m.natAbs % 10 ^ e)

/-- Lowercase hexadecimal digit. -/
def hexDigitChar (n : ℕ) : Char :=
  if n < 10 then Char.ofNat (48 + n) else Char.ofNat (87 + n)

/-- Four-digit hexadecimal block of a `\uXXXX` escape. -/
def hex4 (n : ℕ) : List Char :=
  [hexDigitChar (n / 4096 % 16), hexDigitChar (n / 256 % 16),
   hexDigitChar (n / 16 % 16), hexDigitChar (n % 16)]

/-- `json.dumps` escaping of one character (default `ensure_ascii=True`):
quote, backslash and the C0 short escapes by name, other control and all
non-ASCII characters as `\uXXXX` (a surrogate pair beyond the BMP). -/
def escapeChar (c : Char) : List Char :=
  if c = '"' then ['\\', '"']
  else if c = '\\' then ['\\', '\\']
  else if c = '\n' then ['\\', 'n']
  else if c = '\r' then ['\\', 'r']
  else if c = '\t' then ['\\', 't']
  else if c.toNat = 8 then ['\\', 'b']
  else if c.toNat = 12 then ['\\', 'f']
  else if c.toNat < 32 then '\\' :: 'u' :: hex4 c.toNat
  else if c.toNat < 127 then [c]
  else if c.toNat < 65536 then '\\' :: 'u' :: hex4 c.toNat
  else
    let v := c.toNat - 65536
    '\\' :: 'u' :: hex4 (55296 + v / 1024) ++ '\\' :: 'u' :: hex4 (56320 + v % 1024)

/-- JSON string literal: quoted, characters escaped. -/
def renderString (s : String) : List Char :=
  '"' :: (s.data.flatMap escapeChar) ++ ['"']

/-- Indentation prefix of `json.dumps(..., indent=2)` at nesting level `lvl`. -/
def indentChars (lvl : ℕ) : List Char := List.replicate (2 * lvl) ' '

mutual

/-- `json.dumps(..., indent=2)` of a JSON tree at nesting level `lvl`. -/
def renderJson : ℕ → Json → List Char
  | _, .str s => renderString s
  | _, .jint n => renderInt n
  | _, .num m e => renderFloat m e
  | _, .obj [] => [lbrace, rbrace]
  | lvl, .obj (f :: fs) =>
    lbrace :: '\n' :: renderMembers lvl (f :: fs) ++ '\n' :: indentChars lvl ++ [rbrace]

/-- The comma-and-newline separated members of a non-empty object. -/
def renderMembers : ℕ → List (String × Json) → List Char
  | _, [] => []
  | lvl, [(k, v)] =>
    indentChars (lvl + 1) ++ renderString k ++ ':' :: ' ' :: renderJson (lvl + 1) v
  | lvl, (k, v) :: f :: fs =>
    indentChars (lvl + 1) ++ renderString k ++ ':' :: ' ' :: renderJson (lvl + 1) v
      ++ ',' :: '\n' :: renderMembers lvl (f :: fs)

end

/-- `json.dumps(·, indent=2)` to a string. -/
def jsonDumps (j : Json) : String := String.mk (renderJson 0 j)

/-- Smallest exponent `e ∈ [1, 64]` with `q * 10^e` integral (64 as a junk
fallback; every float the report carries is a decimal fraction, where the
minimal exponent exists and reproduces `repr`'s shortest rendering). -/
def decExp (q : ℚ) : ℕ :=
  (((List.range 64).find? (fun e => (q * 10 ^ (e + 1)).den == 1)).getD 63) + 1

/-- The JSON float node of one of the report's (decimal) float fields. -/
def qToNum (q : ℚ) : Json := .num (q * 10 ^ decExp q).num (decExp q)

/-- `asdict` image of one `by_model` value. -/
def entryToJson (e : ByModelEntry) : Json :=
  .obj [("invocations", .jint e.invocations),
        ("inputTokens", .jint e.inputTokens),
        ("outputTokens", .jint e.outputTokens),
        ("cost", qToNum e.cost),
        ("avgLatency", qToNum e.avgLatency),
        ("errorCount", .jint e.errorCount)]

/-- `asdict(report)` (line 356): the nested dictionary `json.dumps` receives,
as a JSON tree. -/
def reportToJson (r : UsageReport) : Json :=
  .obj [("period", .obj [("startTime", .str r.period.startTime),
                         ("endTime", .str r.period.endTime),
                         ("durationHours", .jint r.period.durationHours)]),
        ("summary", .obj [("totalInvocations", .jint r.summary.totalInvocations),
                          ("totalInputTokens", .jint r.summary.totalInputTokens),
                          ("totalOutputTokens", .jint r.summary.totalOutputTokens),
                          ("estimatedCost", qToNum r.summary.estimatedCost)]),
        ("by_model", .obj (r.by_model.map (fun kv => (kv.1, entryToJson kv.2)))),
        ("projections", .obj [("monthlyInvocations", .jint r.projections.monthlyInvocations),
                              ("monthlyCost", qToNum r.projections.monthlyCost)]),
        ("performance", .obj [("avgLatency", qToNum r.performance.avgLatency),
                              ("p99Latency", qToNum r.performance.p99Latency),
                              ("errorCount", .jint r.performance.errorCount),
                              ("errorRate", qToNum r.performance.errorRate)])]

/-! ### Text formatter (`_format_text_report`, lines 364-419) -/

/-- A run of `n` copies of one character, e.g. `"=" * 60`. -/
def repeatChar (c : Char) (n : ℕ) : String := String.mk (List.replicate n c)

/-- Python `str` of an int, as a `String`. -/
def intStr (i : ℤ) : String := String.mk (renderInt i)

/-- Digit grouping of a reversed digit list: a comma after every three
digits (working from the least-significant end). -/
def groupRev (ds : List Char) : List Char :=
  if ds.length ≤ 3 then ds
  else ds.take 3 ++ ',' :: groupRev (ds.drop 3)
termination_by ds.length
decreasing_by simp; omega

/-- Python `f"{i:,}"`: thousands separators. -/
def fmtThousands (i : ℤ) : String :=
  (if i < 0 then "-" else "") ++ String.mk (groupRev (renderNat i.natAbs).reverse).reverse

/-- Python `f"{x:.kf}"` on the exact-rational model: fixed `k` decimal places,
rounding half to even. -/
def fmtFixed (q : ℚ) (k : ℕ) : String :=
  let r := rhe (q * 10 ^ k)
  (if r < 0 then "-" else "") ++
    String.mk (renderNat (r.natAbs / 10 ^ k)) ++ "." ++
    String.mk (padFrac k (r.natAbs % 10 ^ k))

/-- Display name of a model: `model_id.split('.')[-1] if '.' in model_id else
model_id` (line 401). -/
def modelDisplayName (model_id : String) : String :=
  if model_id.contains '.' then (model_id.splitOn ".").getLastD model_id
  else model_id

/-- The per-model block of the text report (lines 400-408). -/
def textModelBlock (kv : String × ByModelEntry) : List String :=
  ["\n" ++ modelDisplayName kv.1 ++ ":",
   "  Invocations:     " ++ fmtThousands kv.2.invocations,
   "  Input Tokens:    " ++ fmtThousands kv.2.inputTokens,
   "  Output Tokens:   " ++ fmtThousands kv.2.outputTokens,
   "  Cost:            $" ++ fmtFixed kv.2.cost 4,
   "  Avg Latency:     " ++ fmtFixed kv.2.avgLatency 3 ++ "s",
   "  Errors:          " ++ intStr kv.2.errorCount]

/-- `_format_text_report` (lines 364-419). -/
def format_text_report (r : UsageReport) : String :=
  let lines : List String :=
    [repeatChar '=' 60,
     "AWS BEDROCK USAGE REPORT",
     repeatChar '=' 60,
     "",
     "Report Period: " ++ intStr r.period.durationHours ++ " hours",
     "From: " ++ r.period.startTime,
     "To:   " ++ r.period.endTime,
     "",
     "SUMMARY",
     repeatChar '-' 20,
     "Total Invocations:    " ++ fmtThousands r.summary.totalInvocations,
     "Total Input Tokens:   " ++ fmtThousands r.summary.totalInputTokens,
     "Total Output Tokens:  " ++ fmtThousands r.summary.totalOutputTokens,
     "Estimated Cost:       $" ++ fmtFixed r.summary.estimatedCost 4,
     "",
     "PERFORMANCE",
     repeatChar '-' 20,
     "Average Latency:      " ++ fmtFixed r.performance.avgLatency 3 ++ "s",
     "P99 Latency:          " ++ fmtFixed r.performance.p99Latency 3 ++ "s",
     "Error Count:          " ++ intStr r.performance.errorCount,
     "Error Rate:           " ++ fmtFixed r.performance.errorRate 2 ++ "%",
     ""]
    ++ (if r.by_model ≠ [] then
          ["BY MODEL", repeatChar '-' 20] ++ (r.by_model.flatMap textModelBlock)
        else [])
    ++ [""]
    ++ ["MONTHLY PROJECTIONS",
        repeatChar '-' 20,
        "Projected Invocations: " ++ fmtThousands r.projections.monthlyInvocations,
        "Projected Cost:        $" ++ fmtFixed r.projections.monthlyCost 2,
        ""]
  String.intercalate "\n" lines

/-- `format_report` (lines 353-362): dispatch on the lowercased mode string;
`ValueError` (the `UnsupportedFormatError` of the spec) is modelled as
`Except.error` carrying the exception message. -/
def format_report (r : UsageReport) (output_format : String) : Except String String :=
  if pyLower output_format = "json" then .ok (jsonDumps (reportToJson r))
  else if pyLower output_format = "text" then .ok (format_text_report r)
  else .error ("Unsupported output format: " ++ output_format)

/-! ### Parsing the structured output back

The repository has no `parse` of its own: the spec's formatting round-trip
property (§4.3, §8) refers to parsing the structured serialization with a
standard JSON reader (`json.loads`).  The definitions below model it for the
fragment the structured serialization emits. -/

/-- JSON whitespace. -/
def isWsChar (c : Char) : Bool := c = ' ' || c = '\n' || c = '\t' || c = '\r'

/-- Drop leading JSON whitespace. -/
def skipWs : List Char → List Char
  | [] => []
  | c :: cs => if isWsChar c then skipWs cs else c :: cs

/-- Inverse of the named short escapes. -/
def unescapeChar (c : Char) : Option Char :=
  if c = '"' then some '"'
  else if c = '\\' then some '\\'
  else if c = '/' then some '/'
  else if c = 'n' then some '\n'
  else if c = 'r' then some '\r'
  else if c = 't' then some '\t'
  else if c = 'b' then some (Char.ofNat 8)
  else if c = 'f' then some (Char.ofNat 12)
  else none

/-- Modelled from the spec: string-literal body of the JSON reader (`parse`),
which is absent from the repository.  Reads characters up to the closing
quote, resolving the named escapes. -/
def parseStringBody : List Char → Option (List Char × List Char)
  | [] => none
  | c :: cs =>
    if c = '"' then some ([], cs)
    else if c = '\\' then
      match cs with
      | [] => none
      | e :: cs2 =>
        match unescapeChar e with
        | some u => (parseStringBody cs2).map (fun p => (u :: p.1, p.2))
        | none => none
    else (parseStringBody cs).map (fun p => (c :: p.1, p.2))

/-- Numeric value of a decimal digit character. -/
def digitVal (c : Char) : ℕ := c.toNat - 48

/-- Big-endian decimal digit characters to a natural number. -/
def digitsToNat (ds : List Char) : ℕ := ds.foldl (fun a c => 10 * a + digitVal c) 0

/-- Negation of a parsed number node (applying a leading minus sign). -/
def jsonNeg : Json → Json
  | .jint n => .jint (-n)
  | .num m e => .num (-m) e
  | j => j

/-- Modelled from the spec: unsigned number token of the JSON reader
(`parse`), which is absent from the repository.  An integer digit block and
an optional fraction; a fraction makes it a float carried as
mantissa/fraction-length. -/
def parseUnsigned (cs : List Char) : Option (Json × List Char) :=
  let ipart := cs.takeWhile (fun c => c.isDigit)
  let rest1 := cs.dropWhile (fun c => c.isDigit)
  if ipart = [] then none
  else
    match rest1 with
    | '.' :: rest2 =>
      let fpart := rest2.takeWhile (fun c => c.isDigit)
      let rest3 := rest2.dropWhile (fun c => c.isDigit)
      if fpart = [] then none
      else
        some (.num ((digitsToNat ipart : ℤ) * 10 ^ fpart.length + (digitsToNat fpart : ℤ))
          fpart.length, rest3)
    | _ => some (.jint (digitsToNat ipart : ℤ), rest1)

/-- Modelled from the spec: number token of the JSON reader (`parse`): an
optional minus sign followed by an unsigned number. -/
def parseNumber (cs : List Char) : Option (Json × List Char) :=
  match cs with
  | '-' :: r => (parseUnsigned r).map (fun p => (jsonNeg p.1, p.2))
  | _ => parseUnsigned cs

mutual

/-- Modelled from the spec: value grammar of the JSON reader (`parse`), which
is absent from the repository.  Recursion is bounded by a fuel parameter that
the top-level entry point sets larger than the input can nest. -/
def parseValue : ℕ → List Char → Option (Json × List Char)
  | 0, _ => none
  | fuel + 1, cs =>
    match skipWs cs with
    | [] => none
    | c :: cs1 =>
      if c = '"' then (parseStringBody cs1).map (fun p => (.str (String.mk p.1), p.2))
      else if c = lbrace then
        match skipWs cs1 with
        | c2 :: cs2 =>
          if c2 = rbrace then some (.obj [], cs2)
          else (parseMembers fuel (c2 :: cs2)).map (fun p => (.obj p.1, p.2))
        | [] => none
      else parseNumber (c :: cs1)

/-- Modelled from the spec: member list of a non-empty JSON object, consuming
through the closing brace. -/
def parseMembers : ℕ → List Char → Option (List (String × Json) × List Char)
  | 0, _ => none
  | fuel + 1, cs =>
    match skipWs cs with
    | '"' :: cs1 =>
      match parseStringBody cs1 with
      | some (k, cs2) =>
        match skipWs cs2 with
        | ':' :: cs3 =>
          match parseValue fuel cs3 with
          | some (v, cs4) =>
            match skipWs cs4 with
            | ',' :: cs5 => (parseMembers fuel cs5).map (fun p => ((String.mk k, v) :: p.1, p.2))
            | c :: cs5 => if c = rbrace then some ([(String.mk k, v)], cs5) else none
            | [] => none
          | none => none
        | _ => none
      | none => none
    | _ => none

end

/-- Modelled from the spec: the JSON reader (`parse`) applied to a whole
string, requiring full consumption up to trailing whitespace. -/
def parseJson (s : String) : Option Json :=
  match parseValue (s.data.length + 1) s.data with
  | some (j, rest) => if skipWs rest = [] then some j else none
  | none => none

/-- Modelled from the spec: reading one `by_model` value back out of its
parsed JSON object (the field-by-field inverse of `asdict`). -/
def decodeEntry : String × Json → Option (String × ByModelEntry)
  | (k, .obj [("invocations", .jint i), ("inputTokens", .jint it),
              ("outputTokens", .jint ot), ("cost", .num cm ce),
              ("avgLatency", .num am ae), ("errorCount", .jint ec)]) =>
    some (k, { invocations := i, inputTokens := it, outputTokens := ot,
               cost := (cm : ℚ) / 10 ^ ce, avgLatency := (am : ℚ) / 10 ^ ae,
               errorCount := ec })
  | _ => none

/-- Modelled from the spec: reading a whole `UsageReport` back out of its
parsed JSON tree (the field-by-field inverse of `asdict`, which is what "all
fields must round-trip losslessly through parse" quantifies over). -/
def decodeReport : Json → Option UsageReport
  | .obj [("period", .obj [("startTime", .str st), ("endTime", .str et),
                           ("durationHours", .jint dh)]),
          ("summary", .obj [("totalInvocations", .jint ti),
                            ("totalInputTokens", .jint tin),
                            ("totalOutputTokens", .jint tout),
                            ("estimatedCost", .num ecm ece)]),
          ("by_model", .obj bm),
          ("projections", .obj [("monthlyInvocations", .jint mi),
                                ("monthlyCost", .num mcm mce)]),
          ("performance", .obj [("avgLatency", .num alm ale),
                                ("p99Latency", .num plm ple),
                                ("errorCount", .jint pec),
                                ("errorRate", .num erm ere)])] =>
    (bm.mapM decodeEntry).map (fun bml =>
      { period := { startTime := st, endTime := et, durationHours := dh }
        summary := { totalInvocations := ti, totalInputTokens := tin,
                     totalOutputTokens := tout, estimatedCost := (ecm : ℚ) / 10 ^ ece }
        by_model := bml
        projections := { monthlyInvocations := mi, monthlyCost := (mcm : ℚ) / 10 ^ mce }
        performance := { avgLatency := (alm : ℚ) / 10 ^ ale,
                         p99Latency := (plm : ℚ) / 10 ^ ple,
                         errorCount := pec, errorRate := (erm : ℚ) / 10 ^ ere } })
  | _ => none

/-- Modelled from the spec: `parse` of §8's round-trip property, composed with
the field reader. -/
def parseReport (s : String) : Option UsageReport := (parseJson s).bind decodeReport

/-! ### Validity of reports for the round-trip statement -/

/-- Characters that serialize to themselves: printable ASCII other than the
quote and the backslash (model ids and ISO timestamps are of this shape). -/
def cleanChar (c : Char) : Prop := 32 ≤ c.toNat ∧ c.toNat ≤ 126 ∧ c ≠ '"' ∧ c ≠ '\\'

/-- A string of clean characters. -/
def StrClean (s : String) : Prop := ∀ c ∈ s.data, cleanChar c

instance (c : Char) : Decidable (cleanChar c) := by
  unfold cleanChar
  infer_instance

instance (s : String) : Decidable (StrClean s) := by
  unfold StrClean
  exact List.decidableBAll _ _

/-- A float that is a decimal fraction with at most 4 fractional digits —
the shape of every float the report builder emits (costs rounded to 4 or 2
places, latencies to 3, rates to 2). -/
def IsDec4 (q : ℚ) : Prop := ∃ m : ℤ, q = (m : ℚ) / 10 ^ 4

/-- A valid report: its strings are clean and its float fields are the
decimal fractions the builder produces. -/
def ValidReport (r : UsageReport) : Prop :=
  StrClean r.period.startTime ∧ StrClean r.period.endTime ∧
  IsDec4 r.summary.estimatedCost ∧ IsDec4 r.projections.monthlyCost ∧
  IsDec4 r.performance.avgLatency ∧ IsDec4 r.performance.p99Latency ∧
  IsDec4 r.performance.errorRate ∧
  ∀ kv ∈ r.by_model, StrClean kv.1 ∧ IsDec4 kv.2.cost ∧ IsDec4 kv.2.avgLatency

mutual

/-- JSON trees whose strings are clean and whose floats carry at least one
fractional digit (as `repr` prints them). -/
def ValidJson : Json → Prop
  | .str s => StrClean s
  | .jint _ => True
  | .num _ e => 1 ≤ e
  | .obj fs => ValidMembers fs

/-- Member lists of valid objects. -/
def ValidMembers : List (String × Json) → Prop
  | [] => True
  | (k, v) :: fs => StrClean k ∧ ValidJson v ∧ ValidMembers fs

end

/-- A continuation on which a number token stops: empty input, or a next
character that is neither a digit nor a decimal point (every rendered number
is followed by a comma, a newline, or the end of input). -/
def numBoundary : List Char → Prop
  | [] => True
  | c :: _ => c.isDigit = false ∧ c ≠ '.'

mutual

/-- Structural size of a JSON tree, used to bound the parser's fuel. -/
def jsize : Json → ℕ
  | .str _ => 1
  | .jint _ => 1
  | .num _ _ => 1
  | .obj fs => msize fs + 1

/-- Structural size of a member list. -/
def msize : List (String × Json) → ℕ
  | [] => 1
  | (_, v) :: fs => jsize v + msize fs + 1

end

/-! ### Concrete sample inputs (used by witnesses and counterexamples) -/

/-- The spec's §8 scenario: one model, 100 invocations, 50,000 input tokens,
20,000 output tokens, 0 errors (total latency 250 s for concreteness). -/
def mu_scenario : List (String × ModelUsage) :=
  [("anthropic.claude-3-sonnet-20240229-v1:0",
    { invocations := 100, input_tokens := 50000, output_tokens := 20000,
      total_latency := 250, error_count := 0 })]

/-- A second usage mapping with two models, used by witnesses. -/
def mu_two : List (String × ModelUsage) :=
  [("anthropic.claude-3-haiku-20240307-v1:0",
    { invocations := 40, input_tokens := 1000, output_tokens := 500,
      total_latency := 30, error_count := 2 }),
   ("my-custom-model",
    { invocations := 10, input_tokens := 2000, output_tokens := 100,
      total_latency := 90, error_count := 1 })]

/-- A concrete valid report (float fields literally of the `m / 10^4` shape
required by `IsDec4`). -/
def sampleReport : UsageReport :=
  { period := { startTime := "2024-01-01T00:00:00", endTime := "2024-01-02T00:00:00",
                durationHours := 24 }
    summary := { totalInvocations := 100, totalInputTokens := 50000,
                 totalOutputTokens := 20000, estimatedCost := ((4500 : ℤ) : ℚ) / 10 ^ 4 }
    by_model := [("anthropic.claude-3-sonnet-20240229-v1:0",
      { invocations := 100, inputTokens := 50000, outputTokens := 20000,
        cost := ((4500 : ℤ) : ℚ) / 10 ^ 4, avgLatency := ((25000 : ℤ) : ℚ) / 10 ^ 4,
        errorCount := 0 })]
    projections := { monthlyInvocations := 3000, monthlyCost := ((135000 : ℤ) : ℚ) / 10 ^ 4 }
    performance := { avgLatency := ((25000 : ℤ) : ℚ) / 10 ^ 4,
                     p99Latency := ((25000 : ℤ) : ℚ) / 10 ^ 4,
                     errorCount := 0, errorRate := ((0 : ℤ) : ℚ) / 10 ^ 4 } }

/-- A concrete oracle where discovery finds one model, its invocation count
query succeeds, and every other external query fails with a `ClientError`. -/
def oracleOneModel : MetricsOracle :=
  { list_models := .ok ["my-model"]
    metric_sum := fun metric _ => if metric = "Invocations" then .ok [5] else .error "boom"
    start_query := fun _ => .error "boom"
    poll := fun _ _ => .error "boom" }

/-! ## Helper lemmas: numeric model -/

theorem abs_rhe_sub_le (x : ℚ) : |(rhe x : ℚ) - x| ≤ 1 / 2 := by
  have h0 : (0 : ℚ) ≤ Int.fract x := Int.fract_nonneg x
  have h1 : Int.fract x < 1 := Int.fract_lt_one x
  have hfr : x - (⌊x⌋ : ℚ) = Int.fract x := (Int.self_sub_floor x)
  unfold rhe
  split_ifs with hlt hgt heven <;>
    · rw [abs_le]; push_cast; constructor <;> linarith

theorem rhe_mono {x y : ℚ} (h : x ≤ y) : rhe x ≤ rhe y := by
  rcases lt_or_ge ⌊x⌋ ⌊y⌋ with hf | hf
  · have hx : rhe x ≤ ⌊x⌋ + 1 := by unfold rhe; split_ifs <;> omega
    have hy : ⌊y⌋ ≤ rhe y := by unfold rhe; split_ifs <;> omega
    omega
  · have hfe : ⌊x⌋ = ⌊y⌋ := le_antisymm (Int.floor_le_floor h) hf
    have hfr : Int.fract x ≤ Int.fract y := by
      unfold Int.fract; rw [hfe]; linarith
    unfold rhe
    rw [hfe]
    split_ifs <;> first | omega | linarith

theorem rhe_zero : rhe 0 = 0 := by
  unfold rhe
  norm_num

theorem pyRound_mono {x y : ℚ} (n : ℕ) (h : x ≤ y) : pyRound x n ≤ pyRound y n := by
  unfold pyRound
  have hp : (0 : ℚ) < 10 ^ n := by positivity
  gcongr
  exact_mod_cast rhe_mono (mul_le_mul_of_nonneg_right h hp.le)

theorem abs_pyRound_sub_le (x : ℚ) (n : ℕ) : |pyRound x n - x| ≤ 1 / (2 * 10 ^ n) := by
  have hp : (0 : ℚ) < 10 ^ n := by positivity
  have key := abs_rhe_sub_le (x * 10 ^ n)
  have : pyRound x n - x = ((rhe (x * 10 ^ n) : ℚ) - x * 10 ^ n) / 10 ^ n := by
    unfold pyRound; field_simp; ring
  rw [this, abs_div, abs_of_pos hp, div_le_iff₀ hp]
  calc |(rhe (x * 10 ^ n) : ℚ) - x * 10 ^ n| ≤ 1 / 2 := key
    _ = 1 / (2 * 10 ^ n) * 10 ^ n := by field_simp

theorem pyRound_zero (n : ℕ) : pyRound 0 n = 0 := by
  unfold pyRound
  rw [zero_mul, rhe_zero]
  norm_num

theorem pyInt_zero : pyInt 0 = 0 := by
  unfold pyInt
  norm_num

theorem pyInt_eq_floor_of_nonneg {x : ℚ} (h : 0 ≤ x) : pyInt x = ⌊x⌋ := if_pos h

theorem pyInt_sub_floor_natAbs_le (x : ℚ) : (pyInt x - ⌊x⌋).natAbs ≤ 1 := by
  have h1 : ⌈x⌉ ≤ ⌊x⌋ + 1 := Int.ceil_le_floor_add_one x
  have h2 : ⌊x⌋ ≤ ⌈x⌉ := Int.floor_le_ceil x
  unfold pyInt
  split_ifs <;> omega

/-! ## Claim C1 — behaviour at `windowHours <= 0` -/

/-- C1 (counterexample): with the §8 scenario usage and `hours = 0`, the
builder does NOT fail with a division error: it returns a report whose
projections are zero-valued, contradicting the claim. -/
theorem c1_counterexample :
    (generate_report mu_scenario 0 "s" "e").projections =
      { monthlyInvocations := 0, monthlyCost := 0 } := by
  simp only [generate_report]
  norm_num [pyInt_zero, pyRound_zero]

/-- C1 (amended): for every usage mapping and every `windowHours ≤ 0`, the
builder does not raise: the projection multiplier is taken to be `0`
(lines 306-310 guard the division with `if hours > 0 else 0`), so the report
is returned with `monthlyInvocations = 0` and `monthlyCost = 0.0`. -/
theorem c1_nonpos_hours_zero_projections (model_usage : List (String × ModelUsage))
    (hours : ℤ) (h : hours ≤ 0) (startTime endTime : String) :
    (generate_report model_usage hours startTime endTime).projections.monthlyInvocations = 0 ∧
    (generate_report model_usage hours startTime endTime).projections.monthlyCost = 0 := by
  have hneg : ¬ (0 < hours) := by omega
  simp only [generate_report, hneg, if_false]
  norm_num [pyInt_zero, pyRound_zero]

/-- C1 witness: the amended theorem applied at the scenario usage and
`hours = 0`. -/
theorem c1_witness :
    (0 : ℤ) ≤ 0 ∧
    ((generate_report mu_scenario 0 "s" "e").projections.monthlyInvocations = 0 ∧
     (generate_report mu_scenario 0 "s" "e").projections.monthlyCost = 0) :=
  ⟨le_refl 0, c1_nonpos_hours_zero_projections mu_scenario 0 (by decide) "s" "e"⟩

/-! ## Claim C2 — summary totals are the by-model sums -/

/-- C2: for every non-empty usage mapping, the report's summary totals equal
the sums of the corresponding `by_model` fields, and the performance error
count equals the sum of the `by_model` error counts — all exactly. -/
theorem c2_summary_totals (model_usage : List (String × ModelUsage))
    (hne : model_usage ≠ []) (hours : ℤ) (startTime endTime : String) :
    (generate_report model_usage hours startTime endTime).summary.totalInvocations =
      (((generate_report model_usage hours startTime endTime).by_model.map
        (fun kv => kv.2.invocations)).sum) ∧
    (generate_report model_usage hours startTime endTime).summary.totalInputTokens =
      (((generate_report model_usage hours startTime endTime).by_model.map
        (fun kv => kv.2.inputTokens)).sum) ∧
    (generate_report model_usage hours startTime endTime).summary.totalOutputTokens =
      (((generate_report model_usage hours startTime endTime).by_model.map
        (fun kv => kv.2.outputTokens)).sum) ∧
    (generate_report model_usage hours startTime endTime).performance.errorCount =
      (((generate_report model_usage hours startTime endTime).by_model.map
        (fun kv => kv.2.errorCount)).sum) := by
  simp only [generate_report, List.map_map]
  refine ⟨rfl, rfl, rfl, rfl⟩

/-- C2 witness: the theorem applied to the two-model usage mapping. -/
theorem c2_witness :
    mu_two ≠ [] ∧
    ((generate_report mu_two 24 "s" "e").summary.totalInvocations =
      (((generate_report mu_two 24 "s" "e").by_model.map
        (fun kv => kv.2.invocations)).sum) ∧
    (generate_report mu_two 24 "s" "e").summary.totalInputTokens =
      (((generate_report mu_two 24 "s" "e").by_model.map
        (fun kv => kv.2.inputTokens)).sum) ∧
    (generate_report mu_two 24 "s" "e").summary.totalOutputTokens =
      (((generate_report mu_two 24 "s" "e").by_model.map
        (fun kv => kv.2.outputTokens)).sum) ∧
    (generate_report mu_two 24 "s" "e").performance.errorCount =
      (((generate_report mu_two 24 "s" "e").by_model.map
        (fun kv => kv.2.errorCount)).sum)) :=
  ⟨by decide, c2_summary_totals mu_two (by decide) 24 "s" "e"⟩

/-! ## Claim C4 — unknown model ids cost at the default (Sonnet) tier -/

/-- C4: for every model id absent from the pricing table and all token
counts, `calculate_cost` uses the Sonnet prices:
`(inputTokens/1000)*0.003 + (outputTokens/1000)*0.015`. -/
theorem c4_unknown_model_default_pricing (model_id : String)
    (h : model_id ∉ PRICING.map Prod.fst) (input_tokens output_tokens : ℤ) :
    calculate_cost model_id input_tokens output_tokens =
      (input_tokens : ℚ) / 1000 * (0.003 : ℚ) + (output_tokens : ℚ) / 1000 * (0.015 : ℚ) := by
  unfold calculate_cost
  have hfind : PRICING.find? (fun p => p.1 == model_id) = none := by
    rw [List.find?_eq_none]
    intro p hp
    simp only [beq_iff_eq]
    intro hq
    exact h (hq ▸ List.mem_map_of_mem Prod.fst hp)
  rw [hfind]

/-- C4 witness: the theorem applied to a model id that is not in the table. -/
theorem c4_witness :
    "my-custom-model" ∉ PRICING.map Prod.fst ∧
    calculate_cost "my-custom-model" 2000 100 =
      (2000 : ℚ) / 1000 * (0.003 : ℚ) + (100 : ℚ) / 1000 * (0.015 : ℚ) :=
  ⟨by decide, c4_unknown_model_default_pricing "my-custom-model" (by decide) 2000 100⟩

/-! ## Claim C3 — blended average latency is at most the p99 proxy -/

theorem le_foldl_max (x : ℚ) (xs : List ℚ) : ∀ a ∈ x :: xs, a ≤ xs.foldl max x := by
  induction xs generalizing x with
  | nil =>
    intro a ha
    simp only [List.mem_singleton] at ha
    simp [ha]
  | cons y ys ih =>
    intro a ha
    simp only [List.foldl_cons]
    rcases List.mem_cons.mp ha with rfl | ha2
    · exact le_trans (le_max_left a y) (ih (max a y) _ (List.mem_cons_self _ _))
    · rcases List.mem_cons.mp ha2 with rfl | ha3
      · exact le_trans (le_max_right x a) (ih (max x a) _ (List.mem_cons_self _ _))
      · exact ih (max x y) a (List.mem_cons_of_mem _ ha3)

/-- C3: whenever every included model has positive invocations (hence the
total is positive for a non-empty mapping) and all latencies are
non-negative, the invocation-weighted blended average latency is at most the
max-of-per-model-total-latency p99 proxy. -/
theorem c3_avg_latency_le_p99 (model_usage : List (String × ModelUsage))
    (hne : model_usage ≠ [])
    (hpos : ∀ mu ∈ model_usage, 0 < mu.2.invocations)
    (hlat : ∀ mu ∈ model_usage, 0 ≤ mu.2.total_latency)
    (hours : ℤ) (startTime endTime : String) :
    (generate_report model_usage hours startTime endTime).performance.avgLatency ≤
      (generate_report model_usage hours startTime endTime).performance.p99Latency := by
  simp only [generate_report]
  -- every model is kept by the `invocations > 0` filter
  have hfil : model_usage.filter (fun mu => decide (0 < mu.2.invocations)) = model_usage :=
    List.filter_eq_self.mpr (fun mu hm => decide_eq_true (hpos mu hm))
  -- the weighted numerator collapses to the sum of total latencies
  have hnum : (model_usage.map (fun mu => mu.2.avg_latency * (mu.2.invocations : ℚ))).sum =
      (model_usage.map (fun mu => mu.2.total_latency)).sum := by
    congr 1
    refine List.map_congr_left (fun mu hm => ?_)
    have hp := hpos mu hm
    have hz : ((mu.2.invocations : ℚ)) ≠ 0 := by
      exact_mod_cast (ne_of_gt (by exact_mod_cast hp : (0 : ℚ) < (mu.2.invocations : ℚ)))
    unfold ModelUsage.avg_latency
    rw [if_pos hp, div_mul_cancel₀ _ hz]
  -- total invocations dominate the number of models
  have hkT : (model_usage.length : ℤ) ≤ (model_usage.map (fun mu => mu.2.invocations)).sum := by
    have h1 : ∀ x ∈ model_usage.map (fun mu => mu.2.invocations), (1 : ℤ) ≤ x := by
      intro x hx
      obtain ⟨mu, hm, rfl⟩ := List.mem_map.mp hx
      exact hpos mu hm
    have := List.card_nsmul_le_sum (model_usage.map (fun mu => mu.2.invocations)) 1 h1
    simpa using this
  have hk1 : 1 ≤ model_usage.length := List.length_pos.mpr hne
  have hT : (0 : ℤ) < (model_usage.map (fun mu => mu.2.invocations)).sum := by omega
  rw [hfil, if_pos hT, hnum]
  -- expose the head of the latency list
  cases hL : model_usage.map (fun mu => mu.2.total_latency) with
  | nil => exact absurd (List.map_eq_nil_iff.mp hL) hne
  | cons x xs =>
    have hlen : xs.length + 1 = model_usage.length := by
      have := congrArg List.length hL
      simpa [List.length_map] using this.symm
    have hmax := le_foldl_max x xs
    have hM0 : 0 ≤ xs.foldl max x := by
      refine le_trans ?_ (hmax x (List.mem_cons_self _ _))
      have hx : x ∈ model_usage.map (fun mu => mu.2.total_latency) := by
        rw [hL]; exact List.mem_cons_self _ _
      obtain ⟨mu, hm, hq⟩ := List.mem_map.mp hx
      exact hq ▸ hlat mu hm
    have hsum : (x :: xs).sum ≤ ((x :: xs).length : ℚ) * xs.foldl max x := by
      have := List.sum_le_card_nsmul (x :: xs) (xs.foldl max x) hmax
      simpa [nsmul_eq_mul] using this
    have hTq : (0 : ℚ) <
        ((((model_usage.map (fun mu => mu.2.invocations)).sum : ℤ)) : ℚ) := by
      exact_mod_cast hT
    refine pyRound_mono 3 ?_
    dsimp only
    rw [div_le_iff₀ hTq]
    have hlenle : ((x :: xs).length : ℚ) ≤
        ((((model_usage.map (fun mu => mu.2.invocations)).sum : ℤ)) : ℚ) := by
      have hle : ((x :: xs).length : ℤ) ≤ (model_usage.map (fun mu => mu.2.invocations)).sum := by
        simp only [List.length_cons]
        omega
      exact_mod_cast hle
    calc (x :: xs).sum ≤ ((x :: xs).length : ℚ) * List.foldl max x xs := hsum
      _ ≤ ((((model_usage.map (fun mu => mu.2.invocations)).sum : ℤ)) : ℚ) *
            List.foldl max x xs := mul_le_mul_of_nonneg_right hlenle hM0
      _ = List.foldl max x xs *
            ((((model_usage.map (fun mu => mu.2.invocations)).sum : ℤ)) : ℚ) := mul_comm _ _

/-- C3 witness: the theorem applied to the two-model usage mapping. -/
theorem c3_witness :
    (mu_two ≠ [] ∧ (∀ mu ∈ mu_two, 0 < mu.2.invocations) ∧
      (∀ mu ∈ mu_two, 0 ≤ mu.2.total_latency)) ∧
    (generate_report mu_two 24 "s" "e").performance.avgLatency ≤
      (generate_report mu_two 24 "s" "e").performance.p99Latency :=
  ⟨⟨by decide, by decide, by decide⟩,
   c3_avg_latency_le_p99 mu_two (by decide) (by decide) (by decide) 24 "s" "e"⟩

/-! ## Claim C5 — monthly projections -/

theorem pyRound_proj_bound (C m : ℚ) (hm0 : 0 ≤ m) (hmle : m ≤ 720) :
    |pyRound (C * m) 2 - pyRound C 4 * m| ≤ 41 / 1000 := by
  have b1 := abs_pyRound_sub_le (C * m) 2
  have b2 := abs_pyRound_sub_le C 4
  calc |pyRound (C * m) 2 - pyRound C 4 * m|
      ≤ |pyRound (C * m) 2 - C * m| + |C * m - pyRound C 4 * m| := abs_sub_le _ _ _
    _ = |pyRound (C * m) 2 - C * m| + |C - pyRound C 4| * m := by
        rw [show C * m - pyRound C 4 * m = (C - pyRound C 4) * m by ring, abs_mul,
          abs_of_nonneg hm0]
    _ ≤ 1 / (2 * 10 ^ 2) + 1 / (2 * 10 ^ 4) * 720 := by
        have hC : |C - pyRound C 4| ≤ 1 / (2 * 10 ^ 4) := by rw [abs_sub_comm]; exact b2
        have hmul := mul_le_mul hC hmle hm0 (by norm_num)
        exact add_le_add b1 hmul
    _ ≤ 41 / 1000 := by norm_num

/-- C5: for windows in `[1, 8760]`, `monthlyInvocations` is within 1 of
`floor(totalInvocations * (720/windowHours))` and `monthlyCost` is within a
small floating tolerance (41/1000) of `estimatedCost * (720/windowHours)`;
and in the 24-hour scenario with 100 invocations, `monthlyInvocations = 3000`
(multiplier 30). -/
theorem c5_monthly_projections (model_usage : List (String × ModelUsage)) (hours : ℤ)
    (h1 : 1 ≤ hours) (h2 : hours ≤ 8760) (startTime endTime : String) :
    (((generate_report model_usage hours startTime endTime).projections.monthlyInvocations -
        ⌊((generate_report model_usage hours startTime endTime).summary.totalInvocations : ℚ) *
          (720 / (hours : ℚ))⌋).natAbs ≤ 1 ∧
      |(generate_report model_usage hours startTime endTime).projections.monthlyCost -
        (generate_report model_usage hours startTime endTime).summary.estimatedCost *
          (720 / (hours : ℚ))| ≤ 41 / 1000) ∧
    (generate_report mu_scenario 24 "s" "e").projections.monthlyInvocations = 3000 := by
  have h0 : (0 : ℤ) < hours := by omega
  have hq0 : (0 : ℚ) < (hours : ℚ) := by exact_mod_cast h0
  have hcast : (((24 * 30 : ℤ) : ℚ)) = 720 := by norm_num
  refine ⟨⟨?_, ?_⟩, ?_⟩
  · simp only [generate_report, if_pos h0, hcast]
    exact pyInt_sub_floor_natAbs_le _
  · simp only [generate_report, if_pos h0, hcast]
    refine pyRound_proj_bound _ _ (by positivity) ?_
    rw [div_le_iff₀ hq0]
    have hone : (1 : ℚ) ≤ (hours : ℚ) := by exact_mod_cast h1
    nlinarith
  · norm_num [generate_report, mu_scenario, pyInt]

/-- C5 witness: the theorem applied at the scenario window of 24 hours. -/
theorem c5_witness :
    ((1 : ℤ) ≤ 24 ∧ (24 : ℤ) ≤ 8760) ∧
    ((((generate_report mu_scenario 24 "s" "e").projections.monthlyInvocations -
        ⌊((generate_report mu_scenario 24 "s" "e").summary.totalInvocations : ℚ) *
          (720 / ((24 : ℤ) : ℚ))⌋).natAbs ≤ 1 ∧
      |(generate_report mu_scenario 24 "s" "e").projections.monthlyCost -
        (generate_report mu_scenario 24 "s" "e").summary.estimatedCost *
          (720 / ((24 : ℤ) : ℚ))| ≤ 41 / 1000) ∧
    (generate_report mu_scenario 24 "s" "e").projections.monthlyInvocations = 3000) :=
  ⟨⟨by decide, by decide⟩, c5_monthly_projections mu_scenario 24 (by decide) (by decide) "s" "e"⟩

/-! ## Claim C6 — `--hours` range validation gates all AWS work -/

/-- C6: any `--hours` outside `[1, 8760]` makes validation produce a
non-empty error list and `main` exit with code 1 before any AWS client or
metric query; any value inside produces no hours-related error message. -/
theorem c6_hours_gate (args : Args) :
    ((args.hours < 1 ∨ 8760 < args.hours) →
      validate_arguments args ≠ [] ∧
      mainDecision args = .exitValidation (validate_arguments args)) ∧
    (1 ≤ args.hours → args.hours ≤ 8760 →
      "Hours must be a positive integer" ∉ validate_arguments args ∧
      "Hours cannot exceed 8760 (1 year)" ∉ validate_arguments args) := by
  constructor
  · intro h
    have hne : validate_arguments args ≠ [] := by
      unfold validate_arguments
      rcases h with h | h
      · rw [if_pos (by omega : args.hours ≤ 0)]
        simp
      · rw [if_neg (by omega : ¬ args.hours ≤ 0), if_pos h]
        simp
    refine ⟨hne, ?_⟩
    unfold mainDecision
    rw [if_pos hne]
  · intro ha hb
    have hmem : ∀ msg : String, (∀ r : String, msg ≠ "Invalid AWS region format: " ++ r) →
        msg ∉ validate_arguments args := by
      intro msg hmsg
      unfold validate_arguments
      rw [if_neg (by omega : ¬ args.hours ≤ 0), if_neg (by omega : ¬ 8760 < args.hours)]
      simp only [List.nil_append]
      rcases hr : args.region with _ | r
      · simp
      · dsimp only
        split_ifs with hc
        · simp only [List.mem_singleton]
          exact hmsg r
        · simp
    refine ⟨hmem _ (fun r hEq => ?_), hmem _ (fun r hEq => ?_)⟩ <;>
      · have hd := congrArg (fun s : String => s.data.head?) hEq
        simp [String.data_append] at hd

/-- C6 witness: the theorem applied at `--hours 0` (out of range, exits with
the validation errors) and `--hours 24` (in range, no hours error). -/
theorem c6_witness :
    (validate_arguments ⟨0, none, "json", false⟩ ≠ [] ∧
      mainDecision ⟨0, none, "json", false⟩ =
        .exitValidation (validate_arguments ⟨0, none, "json", false⟩)) ∧
    ("Hours must be a positive integer" ∉ validate_arguments ⟨24, none, "json", false⟩ ∧
      "Hours cannot exceed 8760 (1 year)" ∉ validate_arguments ⟨24, none, "json", false⟩) :=
  ⟨(c6_hours_gate ⟨0, none, "json", false⟩).1 (Or.inl (by decide)),
   (c6_hours_gate ⟨24, none, "json", false⟩).2 (by decide) (by decide)⟩

/-! ## Claims C7 and C10 — formatter mode dispatch -/

theorem lowerChar_toNat_of_upper {c : Char} (h : 65 ≤ c.toNat ∧ c.toNat ≤ 90) :
    (lowerChar c).toNat = c.toNat + 32 := by
  have hv : (c.toNat + 32).isValidChar := by
    unfold Nat.isValidChar
    left
    omega
  unfold lowerChar
  rw [if_pos h]
  show (Char.ofNat (c.toNat + 32)).toNat = c.toNat + 32
  unfold Char.ofNat
  rw [dif_pos hv]
  rfl

theorem lowerChar_of_not_upper {c : Char} (h : ¬(65 ≤ c.toNat ∧ c.toNat ≤ 90)) :
    lowerChar c = c := by
  unfold lowerChar
  exact if_neg h

theorem lowerChar_idem (c : Char) : lowerChar (lowerChar c) = lowerChar c := by
  by_cases h : 65 ≤ c.toNat ∧ c.toNat ≤ 90
  · have h1 := lowerChar_toNat_of_upper h
    exact lowerChar_of_not_upper (by omega)
  · rw [lowerChar_of_not_upper h, lowerChar_of_not_upper h]

theorem pyLower_idem (s : String) : pyLower (pyLower s) = pyLower s := by
  unfold pyLower
  congr 1
  rw [List.map_map]
  exact List.map_congr_left (fun a _ => lowerChar_idem a)

/-- C7 (counterexample): the mode `"JSON"` is neither `"json"` (the
structured mode selector) nor `"text"`, yet the formatter succeeds on it
instead of failing — mode matching is case-insensitive. -/
theorem c7_counterexample :
    (("JSON" : String) ≠ "json" ∧ ("JSON" : String) ≠ "text") ∧
    format_report sampleReport "JSON" = .ok (jsonDumps (reportToJson sampleReport)) := by
  refine ⟨⟨by decide, by decide⟩, ?_⟩
  unfold format_report
  rw [show pyLower "JSON" = "json" from by decide, if_pos rfl]

/-- C7 (amended): the formatter fails with the `UnsupportedFormatError`
(Python `ValueError`) exactly when the lowercased mode is neither `"json"`
nor `"text"`; when the lowercased mode is one of the two it returns a string
without error. -/
theorem c7_format_dispatch (r : UsageReport) (mode : String) :
    ((pyLower mode ≠ "json" ∧ pyLower mode ≠ "text") →
      format_report r mode = .error ("Unsupported output format: " ++ mode)) ∧
    ((pyLower mode = "json" ∨ pyLower mode = "text") →
      ∃ s, format_report r mode = .ok s) := by
  unfold format_report
  constructor
  · intro h
    rw [if_neg h.1, if_neg h.2]
  · intro h
    by_cases hj : pyLower mode = "json"
    · rw [if_pos hj]
      exact ⟨_, rfl⟩
    · rcases h with h | h
      · exact absurd h hj
      · rw [if_neg hj, if_pos h]
        exact ⟨_, rfl⟩

/-- C7 witness: the amended theorem applied at the rejected mode `"xml"` and
the accepted mode `"Text"`. -/
theorem c7_witness :
    ((pyLower "xml" ≠ "json" ∧ pyLower "xml" ≠ "text") ∧
      format_report sampleReport "xml" = .error ("Unsupported output format: " ++ "xml")) ∧
    (∃ s, format_report sampleReport "Text" = .ok s) :=
  ⟨⟨⟨by decide, by decide⟩,
    (c7_format_dispatch sampleReport "xml").1 ⟨by decide, by decide⟩⟩,
   (c7_format_dispatch sampleReport "Text").2 (Or.inr (by decide))⟩

/-- C10 (counterexample): for the unsupported mode `"XML"` the two calls do
not return the same result: both fail, but the `ValueError` message quotes
the mode argument as given (`"XML"` vs `"xml"`). -/
theorem c10_counterexample :
    format_report sampleReport "XML" ≠ format_report sampleReport (pyLower "XML") := by
  have h2 : pyLower "XML" = "xml" := by decide
  have h1 : format_report sampleReport "XML" =
      .error ("Unsupported output format: " ++ "XML") := by
    unfold format_report
    rw [h2, if_neg (by decide), if_neg (by decide)]
  have h3 : format_report sampleReport "xml" =
      .error ("Unsupported output format: " ++ "xml") := by
    unfold format_report
    rw [show pyLower "xml" = "xml" from by decide, if_neg (by decide), if_neg (by decide)]
  rw [h1, h2, h3]
  intro hEq
  have := Except.error.inj hEq
  exact absurd this (by decide)

/-- C10 (amended): mode dispatch is case-insensitive — when the lowercased
mode is supported, `format_report r m = format_report r (lower m)`; when it
is not, both calls fail with the `ValueError`, whose message quotes the
respective mode argument verbatim. -/
theorem c10_format_case_insensitive (r : UsageReport) (mode : String) :
    ((pyLower mode = "json" ∨ pyLower mode = "text") →
      format_report r mode = format_report r (pyLower mode)) ∧
    ((pyLower mode ≠ "json" ∧ pyLower mode ≠ "text") →
      format_report r mode = .error ("Unsupported output format: " ++ mode) ∧
      format_report r (pyLower mode) =
        .error ("Unsupported output format: " ++ pyLower mode)) := by
  have hid := pyLower_idem mode
  constructor
  · intro h
    unfold format_report
    rw [hid]
    by_cases hj : pyLower mode = "json"
    · rw [if_pos hj, if_pos hj]
    · rcases h with h | h
      · exact absurd h hj
      · rw [if_neg hj, if_pos h, if_neg hj, if_pos h]
  · intro h
    unfold format_report
    rw [hid, if_neg h.1, if_neg h.2, if_neg h.1, if_neg h.2]
    exact ⟨rfl, rfl⟩

/-- C10 witness: the amended theorem applied at the accepted mode `"JSON"`
and the rejected mode `"XML"`. -/
theorem c10_witness :
    format_report sampleReport "JSON" = format_report sampleReport (pyLower "JSON") ∧
    (format_report sampleReport "XML" = .error ("Unsupported output format: " ++ "XML") ∧
      format_report sampleReport (pyLower "XML") =
        .error ("Unsupported output format: " ++ pyLower "XML")) :=
  ⟨(c10_format_case_insensitive sampleReport "JSON").1 (Or.inl (by decide)),
   (c10_format_case_insensitive sampleReport "XML").2 ⟨by decide, by decide⟩⟩

/-! ## Claim C8 — the aggregation layer is fault-tolerant -/

theorem mapM_pure_except {ε α β : Type} (f : α → β) (l : List α) :
    l.mapM (m := Except ε) (fun a => pure (f a)) = pure (l.map f) := by
  induction l with
  | nil => rfl
  | cons a l ih => simp only [List.mapM_cons, ih, List.map_cons]; rfl

theorem error_count_loop_no_complete (o : MetricsOracle) (qid : String)
    (hp : ∀ n res, o.poll qid n = .ok res → res.status ≠ "Complete") :
    ∀ w, error_count_loop o qid w = 0 := by
  suffices H : ∀ fuel w, 10 - w ≤ fuel → error_count_loop o qid w = 0 from
    fun w => H 10 w (by omega)
  intro fuel
  induction fuel with
  | zero =>
    intro w hw
    unfold error_count_loop
    rw [if_neg (by omega)]
  | succ n ih =>
    intro w hw
    unfold error_count_loop
    split_ifs with hlt
    · cases hpoll : o.poll qid (w + 1) with
      | error e => exact ih (w + 1) (by omega)
      | ok res =>
        dsimp only
        rw [if_neg (hp (w + 1) res hpoll)]
        split_ifs with hf
        · rfl
        · exact ih (w + 1) (by omega)
    · rfl

/-- C8: for every oracle of external query outcomes, (i) the `try` body of
`get_metrics_data` never raises — the outer handler is unreachable and a
(possibly empty) mapping is returned in all cases; (ii) a discovery failure
degrades to the empty mapping; (iii) each individual query failure (a
`ClientError`) or a log-query that never reaches `Complete` status yields `0`
for that specific metric of that model only, independently of the other
queries. -/
theorem c8_aggregation_fault_tolerant (o : MetricsOracle) :
    get_metrics_data_body o = Except.ok (get_metrics_data o) ∧
    (∀ e, o.list_models = .error e → get_metrics_data o = []) ∧
    (∀ mid,
      (∀ e, o.metric_sum "Invocations" mid = .error e →
        (aggregate_model o mid).invocations = 0) ∧
      (∀ e, o.metric_sum "InputTokenCount" mid = .error e →
        (aggregate_model o mid).input_tokens = 0) ∧
      (∀ e, o.metric_sum "OutputTokenCount" mid = .error e →
        (aggregate_model o mid).output_tokens = 0) ∧
      (∀ e, o.metric_sum "InvocationLatency" mid = .error e →
        (aggregate_model o mid).total_latency = 0) ∧
      (∀ e, o.start_query mid = .error e →
        (aggregate_model o mid).error_count = 0) ∧
      (∀ qid, o.start_query mid = .ok qid →
        (∀ n res, o.poll qid n = .ok res → res.status ≠ "Complete") →
        (aggregate_model o mid).error_count = 0)) := by
  refine ⟨?_, ?_, ?_⟩
  · unfold get_metrics_data_body
    dsimp only
    rw [show (get_available_models o).mapM (m := Except String)
          (fun mid => pure (mid, aggregate_model o mid)) =
        pure ((get_available_models o).map (fun mid => (mid, aggregate_model o mid))) from
      mapM_pure_except _ _]
    rfl
  · intro e he
    unfold get_metrics_data get_available_models
    rw [he]
    rfl
  · intro mid
    refine ⟨?_, ?_, ?_, ?_, ?_, ?_⟩
    · intro e he
      show get_metric_sum o "Invocations" mid = 0
      unfold get_metric_sum
      rw [he]
    · intro e he
      show get_metric_sum o "InputTokenCount" mid = 0
      unfold get_metric_sum
      rw [he]
    · intro e he
      show get_metric_sum o "OutputTokenCount" mid = 0
      unfold get_metric_sum
      rw [he]
    · intro e he
      show ((get_metric_sum o "InvocationLatency" mid : ℤ) : ℚ) / 1000 = 0
      unfold get_metric_sum
      rw [he]
      norm_num
    · intro e he
      show get_error_count o mid = 0
      unfold get_error_count
      rw [he]
    · intro qid hq hp
      show get_error_count o mid = 0
      unfold get_error_count
      rw [hq]
      exact error_count_loop_no_complete o qid hp 0

/-- C8 witness: the theorem applied to the concrete oracle where only the
invocation-count query succeeds — the body still returns a mapping, and the
failed input-token query and failed log query degrade to `0`. -/
theorem c8_witness :
    get_metrics_data_body oracleOneModel = Except.ok (get_metrics_data oracleOneModel) ∧
    (aggregate_model oracleOneModel "my-model").input_tokens = 0 ∧
    (aggregate_model oracleOneModel "my-model").error_count = 0 :=
  ⟨(c8_aggregation_fault_tolerant oracleOneModel).1,
   ((c8_aggregation_fault_tolerant oracleOneModel).2.2 "my-model").2.1 "boom" (by rfl),
   ((c8_aggregation_fault_tolerant oracleOneModel).2.2 "my-model").2.2.2.2.1 "boom" (by rfl)⟩

/-! ## Claim C9 — structured round-trip: whitespace and token lemmas -/

theorem skipWs_cons_not_ws {c : Char} (cs : List Char) (h : isWsChar c = false) :
    skipWs (c :: cs) = c :: cs := by
  simp [skipWs, h]

theorem skipWs_ws_append (ws cs : List Char) (h : ∀ c ∈ ws, isWsChar c = true) :
    skipWs (ws ++ cs) = skipWs cs := by
  induction ws with
  | nil => rfl
  | cons c w ih =>
    simp only [List.cons_append]
    have hc := h c (List.mem_cons_self _ _)
    simp [skipWs, hc, ih (fun d hd => h d (List.mem_cons_of_mem _ hd))]

theorem skipWs_idem (cs : List Char) : skipWs (skipWs cs) = skipWs cs := by
  induction cs with
  | nil => rfl
  | cons c cs ih =>
    by_cases h : isWsChar c = true
    · simp [skipWs, h, ih]
    · rw [skipWs_cons_not_ws cs (by simpa using h), skipWs_cons_not_ws cs (by simpa using h)]

theorem indentChars_ws (lvl : ℕ) : ∀ c ∈ indentChars lvl, isWsChar c = true := by
  intro c hc
  have hc2 : c = ' ' := List.eq_of_mem_replicate (by simpa [indentChars] using hc)
  subst hc2
  decide

theorem skipWs_newline_indent (lvl : ℕ) (cs : List Char) :
    skipWs ('\n' :: (indentChars lvl ++ cs)) = skipWs cs := by
  have h1 : skipWs ('\n' :: (indentChars lvl ++ cs)) = skipWs (indentChars lvl ++ cs) := by
    simp only [skipWs]
    rw [if_pos (by decide)]
  rw [h1, skipWs_ws_append _ _ (indentChars_ws lvl)]

theorem takeWhile_append_boundary {p : Char → Bool} (l r : List Char)
    (hl : ∀ c ∈ l, p c = true)
    (hr : ∀ c rs2, r = c :: rs2 → p c = false) :
    (l ++ r).takeWhile p = l ∧ (l ++ r).dropWhile p = r := by
  induction l with
  | nil =>
    cases r with
    | nil => exact ⟨rfl, rfl⟩
    | cons c r2 =>
      have hc := hr c r2 rfl
      simp [List.takeWhile_cons, List.dropWhile_cons, hc]
  | cons c l2 ih =>
    have hc := hl c (List.mem_cons_self _ _)
    have := ih (fun d hd => hl d (List.mem_cons_of_mem _ hd))
    simp only [List.cons_append, List.takeWhile_cons, List.dropWhile_cons, hc]
    simp [this.1, this.2]

theorem toNat_ofNat_valid {n : ℕ} (h : n.isValidChar) : (Char.ofNat n).toNat = n := by
  unfold Char.ofNat
  rw [dif_pos h]
  rfl

theorem digitChar_isDigit {d : ℕ} (h : d < 10) : (Char.ofNat (48 + d)).isDigit = true := by
  interval_cases d <;> decide

theorem digitVal_digitChar {d : ℕ} (h : d < 10) : digitVal (Char.ofNat (48 + d)) = d := by
  interval_cases d <;> decide

theorem renderNat_ne_nil (n : ℕ) : renderNat n ≠ [] := by
  unfold renderNat
  split_ifs with h
  · simp
  · simp [Nat.digits_ne_nil_iff_ne_zero.mpr h]

theorem renderNat_all_digits (n : ℕ) : ∀ c ∈ renderNat n, c.isDigit = true := by
  unfold renderNat
  split_ifs with h
  · intro c hc
    simp only [List.mem_singleton] at hc
    subst hc
    decide
  · intro c hc
    simp only [List.mem_map, List.mem_reverse] at hc
    obtain ⟨d, hd, rfl⟩ := hc
    exact digitChar_isDigit (Nat.digits_lt_base (by norm_num) hd)

theorem foldl_congr_mem {α β : Type} (l : List α) (f g : β → α → β)
    (h : ∀ b, ∀ a ∈ l, f b a = g b a) : ∀ acc, l.foldl f acc = l.foldl g acc := by
  induction l with
  | nil => intro acc; rfl
  | cons a l ih =>
    intro acc
    simp only [List.foldl_cons]
    rw [h acc a (List.mem_cons_self _ _)]
    exact ih (fun b a2 ha2 => h b a2 (List.mem_cons_of_mem _ ha2)) _

theorem foldl_base10 (l : List ℕ) :
    ∀ acc : ℕ, l.foldl (fun a d => 10 * a + d) acc =
      acc * 10 ^ l.length + Nat.ofDigits 10 l.reverse := by
  induction l with
  | nil => intro acc; simp [Nat.ofDigits]
  | cons d l2 ih =>
    intro acc
    simp only [List.foldl_cons, List.length_cons, List.reverse_cons]
    rw [ih (10 * acc + d), Nat.ofDigits_append, Nat.ofDigits_singleton]
    simp only [List.length_reverse]
    ring

theorem digitsToNat_renderNat (n : ℕ) : digitsToNat (renderNat n) = n := by
  unfold renderNat
  split_ifs with h
  · subst h
    decide
  · unfold digitsToNat
    rw [List.foldl_map]
    rw [foldl_congr_mem _ _ (fun a d => 10 * a + d)
      (fun b d hd => by
        rw [digitVal_digitChar
          (Nat.digits_lt_base (by norm_num) (List.mem_reverse.mp hd))]) 0]
    rw [foldl_base10]
    simp [Nat.ofDigits_digits]

theorem digitsToNat_replicate_zero (k : ℕ) (ds : List Char) :
    digitsToNat (List.replicate k '0' ++ ds) = digitsToNat ds := by
  induction k with
  | zero => rfl
  | succ k2 ih =>
    have : digitsToNat (List.replicate (k2 + 1) '0' ++ ds) =
        digitsToNat (List.replicate k2 '0' ++ ds) := by
      simp [digitsToNat, List.replicate_succ, digitVal]
    rw [this, ih]

theorem padFrac_all_digits (e x : ℕ) : ∀ c ∈ padFrac e x, c.isDigit = true := by
  intro c hc
  rcases List.mem_append.mp hc with hc2 | hc2
  · rw [List.eq_of_mem_replicate hc2]
    decide
  · exact renderNat_all_digits x c hc2

theorem digitsToNat_padFrac (e x : ℕ) : digitsToNat (padFrac e x) = x := by
  unfold padFrac
  rw [digitsToNat_replicate_zero, digitsToNat_renderNat]

theorem renderNat_length_le {x e : ℕ} (hx : x < 10 ^ e) (he : 1 ≤ e) :
    (renderNat x).length ≤ e := by
  unfold renderNat
  split_ifs with h
  · simpa using he
  · simp only [List.length_map, List.length_reverse]
    rw [Nat.digits_len 10 x (by norm_num) h]
    have := Nat.log_lt_of_lt_pow h hx
    omega

theorem padFrac_length {e x : ℕ} (hx : x < 10 ^ e) (he : 1 ≤ e) :
    (padFrac e x).length = e := by
  have := renderNat_length_le hx he
  simp only [padFrac, List.length_append, List.length_replicate]
  omega

theorem escapeChar_clean {c : Char} (h : cleanChar c) : escapeChar c = [c] := by
  obtain ⟨h1, h2, h3, h4⟩ := h
  unfold escapeChar
  rw [if_neg h3, if_neg h4,
    if_neg (fun hEq => absurd (hEq ▸ h1) (by decide)),
    if_neg (fun hEq => absurd (hEq ▸ h1) (by decide)),
    if_neg (fun hEq => absurd (hEq ▸ h1) (by decide)),
    if_neg (by omega), if_neg (by omega), if_neg (by omega), if_pos (by omega)]

theorem escapeList_clean (l : List Char) (h : ∀ c ∈ l, cleanChar c) :
    l.flatMap escapeChar = l := by
  induction l with
  | nil => rfl
  | cons c l2 ih =>
    rw [List.flatMap_cons, escapeChar_clean (h c (List.mem_cons_self _ _)),
      ih (fun d hd => h d (List.mem_cons_of_mem _ hd))]
    rfl

theorem renderString_clean (s : String) (h : StrClean s) :
    renderString s = '"' :: s.data ++ ['"'] := by
  unfold renderString
  rw [escapeList_clean s.data h]

theorem parseStringBody_clean (s rest : List Char) (h : ∀ c ∈ s, cleanChar c) :
    parseStringBody (s ++ '"' :: rest) = some (s, rest) := by
  induction s with
  | nil =>
    rw [List.nil_append]
    unfold parseStringBody
    rw [if_pos rfl]
  | cons c s2 ih =>
    obtain ⟨h1, h2, h3, h4⟩ := h c (List.mem_cons_self _ _)
    rw [List.cons_append]
    unfold parseStringBody
    rw [if_neg h3, if_neg h4, ih (fun d hd => h d (List.mem_cons_of_mem _ hd))]
    rfl

theorem numBoundary_digit_head {rest : List Char} (hb : numBoundary rest) :
    ∀ c rs2, rest = c :: rs2 → c.isDigit = false := by
  intro c rs2 hEq
  subst hEq
  exact hb.1

theorem parseUnsigned_nat (a : ℕ) (rest : List Char) (hb : numBoundary rest) :
    parseUnsigned (renderNat a ++ rest) = some (.jint (a : ℤ), rest) := by
  have htd := takeWhile_append_boundary (p := fun c => c.isDigit) (renderNat a) rest
    (renderNat_all_digits a) (numBoundary_digit_head hb)
  unfold parseUnsigned
  rw [htd.1, htd.2, if_neg (renderNat_ne_nil a)]
  cases rest with
  | nil =>
    rw [digitsToNat_renderNat]
  | cons r rs =>
    split
    · rename_i rest2 hEq
      exact absurd (List.head_eq_of_cons_eq hEq) (by simpa using hb.2)
    · rw [digitsToNat_renderNat]

theorem padFrac_ne_nil {e x : ℕ} (hx : x < 10 ^ e) (he : 1 ≤ e) : padFrac e x ≠ [] := by
  intro hEq
  have := padFrac_length hx he
  rw [hEq] at this
  simp at this
  omega

theorem parseUnsigned_float (a e : ℕ) (he : 1 ≤ e) (rest : List Char) (hb : numBoundary rest) :
    parseUnsigned (renderNat (a / 10 ^ e) ++ '.' :: (padFrac e (a % 10 ^ e) ++ rest)) =
      some (.num (a : ℤ) e, rest) := by
  have hmod : a % 10 ^ e < 10 ^ e := Nat.mod_lt _ (by positivity)
  have htd1 := takeWhile_append_boundary (p := fun c => c.isDigit) (renderNat (a / 10 ^ e))
    ('.' :: (padFrac e (a % 10 ^ e) ++ rest)) (renderNat_all_digits _)
    (fun c rs2 hEq => by cases hEq; decide)
  have htd2 := takeWhile_append_boundary (p := fun c => c.isDigit) (padFrac e (a % 10 ^ e))
    rest (padFrac_all_digits _ _) (numBoundary_digit_head hb)
  have hda : ((a / 10 ^ e : ℕ) : ℤ) * 10 ^ e + ((a % 10 ^ e : ℕ) : ℤ) = (a : ℤ) := by
    have hnat : a / 10 ^ e * 10 ^ e + a % 10 ^ e = a := by
      rw [mul_comm]
      exact Nat.div_add_mod a (10 ^ e)
    exact_mod_cast hnat
  unfold parseUnsigned
  rw [htd1.1, htd1.2, if_neg (renderNat_ne_nil _)]
  split
  · rename_i rest2 hEq
    injection hEq with hEq1 hEq2
    subst hEq2
    rw [htd2.1, htd2.2, if_neg (padFrac_ne_nil hmod he), digitsToNat_renderNat,
      digitsToNat_padFrac, padFrac_length hmod he, hda]
  · rename_i hnm
    exact (hnm (padFrac e (a % 10 ^ e) ++ rest) rfl).elim

theorem parseNumber_int (n : ℤ) (rest : List Char) (hb : numBoundary rest) :
    parseNumber (renderInt n ++ rest) = some (.jint n, rest) := by
  unfold renderInt
  split_ifs with hn
  · simp only [List.append_assoc, List.singleton_append, List.cons_append, List.nil_append]
    unfold parseNumber
    split
    · rename_i r hEq
      injection hEq with hEq1 hEq2
      subst hEq2
      rw [parseUnsigned_nat _ _ hb]
      show some (jsonNeg (.jint (n.natAbs : ℤ)), rest) = some (.jint n, rest)
      simp only [jsonNeg]
      have : -((n.natAbs : ℤ)) = n := by omega
      rw [this]
    · rename_i hnm
      exact (hnm (renderNat n.natAbs ++ rest) rfl).elim
  · rw [List.nil_append]
    unfold parseNumber
    split
    · rename_i r hEq
      obtain ⟨c, cs, hcons⟩ : ∃ c cs, renderNat n.natAbs = c :: cs := by
        cases hrn : renderNat n.natAbs with
        | nil => exact absurd hrn (renderNat_ne_nil _)
        | cons c cs => exact ⟨c, cs, rfl⟩
      rw [hcons] at hEq
      have hcd : c.isDigit = true :=
        renderNat_all_digits _ c (hcons ▸ List.mem_cons_self _ _)
      have : c = '-' := List.head_eq_of_cons_eq hEq
      rw [this] at hcd
      exact absurd hcd (by decide)
    · rw [parseUnsigned_nat _ _ hb]
      have : ((n.natAbs : ℤ)) = n := by omega
      rw [this]

theorem parseNumber_float (m : ℤ) (e : ℕ) (he : 1 ≤ e) (rest : List Char)
    (hb : numBoundary rest) :
    parseNumber (renderFloat m e ++ rest) = some (.num m e, rest) := by
  unfold renderFloat
  split_ifs with hn
  · simp only [List.append_assoc, List.singleton_append, List.cons_append, List.nil_append]
    unfold parseNumber
    split
    · rename_i r hEq
      injection hEq with hEq1 hEq2
      subst hEq2
      rw [parseUnsigned_float _ _ he _ hb]
      show some (jsonNeg (.num (m.natAbs : ℤ) e), rest) = some (.num m e, rest)
      simp only [jsonNeg]
      have : -((m.natAbs : ℤ)) = m := by omega
      rw [this]
    · rename_i hnm
      exact (hnm (renderNat (m.natAbs / 10 ^ e) ++
        '.' :: (padFrac e (m.natAbs % 10 ^ e) ++ rest)) rfl).elim
  · simp only [List.nil_append, List.append_assoc, List.cons_append]
    unfold parseNumber
    split
    · rename_i r hEq
      obtain ⟨c, cs, hcons⟩ : ∃ c cs, renderNat (m.natAbs / 10 ^ e) = c :: cs := by
        cases hrn : renderNat (m.natAbs / 10 ^ e) with
        | nil => exact absurd hrn (renderNat_ne_nil _)
        | cons c cs => exact ⟨c, cs, rfl⟩
      rw [hcons] at hEq
      have hcd : c.isDigit = true :=
        renderNat_all_digits _ c (hcons ▸ List.mem_cons_self _ _)
      have : c = '-' := List.head_eq_of_cons_eq hEq
      rw [this] at hcd
      exact absurd hcd (by decide)
    · rw [parseUnsigned_float _ _ he _ hb]
      have : ((m.natAbs : ℤ)) = m := by omega
      rw [this]

theorem isWsChar_cases {c : Char} (h : isWsChar c = true) :
    c = ' ' ∨ c = '\n' ∨ c = '\t' ∨ c = '\r' := by
  unfold isWsChar at h
  simp only [Bool.or_eq_true, decide_eq_true_eq] at h
  tauto

theorem not_ws_of_digit {c : Char} (h : c.isDigit = true) : isWsChar c = false := by
  cases hw : isWsChar c
  · rfl
  · rcases isWsChar_cases hw with rfl | rfl | rfl | rfl <;> exact absurd h (by decide)

theorem digit_ne_quote {c : Char} (h : c.isDigit = true) : c ≠ '"' :=
  fun hEq => absurd (hEq ▸ h) (by decide)

theorem digit_ne_lbrace {c : Char} (h : c.isDigit = true) : c ≠ lbrace :=
  fun hEq => absurd (hEq ▸ h) (by decide)

theorem renderNat_cons (a : ℕ) : ∃ c cs, renderNat a = c :: cs ∧ c.isDigit = true := by
  cases hrn : renderNat a with
  | nil => exact absurd hrn (renderNat_ne_nil a)
  | cons c cs =>
    refine ⟨c, cs, rfl, renderNat_all_digits a c ?_⟩
    rw [hrn]
    exact List.mem_cons_self _ _

theorem renderInt_head (n : ℤ) :
    ∃ c cs, renderInt n = c :: cs ∧ (c.isDigit = true ∨ c = '-') := by
  unfold renderInt
  split_ifs with hn
  · exact ⟨'-', renderNat n.natAbs, rfl, Or.inr rfl⟩
  · obtain ⟨c, cs, hcons, hcd⟩ := renderNat_cons n.natAbs
    rw [List.nil_append, hcons]
    exact ⟨c, cs, rfl, Or.inl hcd⟩

theorem renderFloat_head (m : ℤ) (e : ℕ) :
    ∃ c cs, renderFloat m e = c :: cs ∧ (c.isDigit = true ∨ c = '-') := by
  unfold renderFloat
  split_ifs with hn
  · exact ⟨'-', _, rfl, Or.inr rfl⟩
  · obtain ⟨c, cs, hcons, hcd⟩ := renderNat_cons (m.natAbs / 10 ^ e)
    rw [List.nil_append, hcons, List.cons_append]
    exact ⟨c, _, rfl, Or.inl hcd⟩

theorem parseValue_ws_congr (fuel : ℕ) {x y : List Char} (h : skipWs x = skipWs y) :
    parseValue fuel x = parseValue fuel y := by
  cases fuel with
  | zero => rfl
  | succ n =>
    unfold parseValue
    rw [h]

theorem parseMembers_ws_congr (fuel : ℕ) {x y : List Char} (h : skipWs x = skipWs y) :
    parseMembers fuel x = parseMembers fuel y := by
  cases fuel with
  | zero => rfl
  | succ n =>
    unfold parseMembers
    rw [h]

theorem skipWs_cons_of_ws {c : Char} (cs : List Char) (h : isWsChar c = true) :
    skipWs (c :: cs) = skipWs cs := by
  simp only [skipWs]
  rw [if_pos h]

/-- Every rendered non-empty member list is its indentation, the quoted
first key, the colon-space separator, the first value, and (when more members
follow) a comma-newline and the rendered tail. -/
theorem renderMembers_shape (lvl : ℕ) (k : String) (v : Json)
    (tail : List (String × Json)) (hk : StrClean k) :
    ∃ X, renderMembers lvl ((k, v) :: tail) =
      indentChars (lvl + 1) ++ '"' :: (k.data ++ '"' :: (':' :: ' ' ::
        (renderJson (lvl + 1) v ++ X))) ∧
      ((tail = [] ∧ X = []) ∨
        (∃ f fs, tail = f :: fs ∧ X = ',' :: '\n' :: renderMembers lvl (f :: fs))) := by
  cases tail with
  | nil =>
    refine ⟨[], ?_, Or.inl ⟨rfl, rfl⟩⟩
    show indentChars (lvl + 1) ++ renderString k ++ ':' :: ' ' :: renderJson (lvl + 1) v = _
    rw [renderString_clean k hk]
    simp [List.append_assoc]
  | cons f fs =>
    refine ⟨',' :: '\n' :: renderMembers lvl (f :: fs), ?_, Or.inr ⟨f, fs, rfl, rfl⟩⟩
    show indentChars (lvl + 1) ++ renderString k ++ ':' :: ' ' :: renderJson (lvl + 1) v
        ++ ',' :: '\n' :: renderMembers lvl (f :: fs) = _
    rw [renderString_clean k hk]
    simp [List.append_assoc]

/-- Main round-trip lemma: with enough fuel, the parser consumes exactly the
rendering of a valid JSON tree (at any indentation level) and returns the
tree; similarly for non-empty member lists followed by their closing brace. -/
theorem parse_render_main : ∀ fuel : ℕ,
    (∀ j, ValidJson j → jsize j < fuel → ∀ lvl rest, numBoundary rest →
      parseValue fuel (renderJson lvl j ++ rest) = some (j, rest)) ∧
    (∀ ms, ValidMembers ms → ms ≠ [] → msize ms < fuel → ∀ lvl rest,
      parseMembers fuel
        (renderMembers lvl ms ++ '\n' :: (indentChars lvl ++ rbrace :: rest)) =
        some (ms, rest)) := by
  intro fuel
  induction fuel with
  | zero =>
    constructor
    · intro j _ hf
      omega
    · intro ms _ _ hf
      omega
  | succ n ih =>
    constructor
    · intro j hv hf lvl rest hb
      cases j with
      | str s =>
        have hs : StrClean s := hv
        rw [show renderJson lvl (.str s) ++ rest = '"' :: (s.data ++ '"' :: rest) by
          show renderString s ++ rest = _
          rw [renderString_clean s hs]
          simp]
        unfold parseValue
        rw [skipWs_cons_not_ws _ (by decide)]
        dsimp only
        rw [if_pos rfl, parseStringBody_clean s.data rest hs]
        rfl
      | jint k =>
        obtain ⟨c, cs, hcons, hcd⟩ := renderInt_head k
        have hnw : isWsChar c = false := by
          rcases hcd with hd | rfl
          · exact not_ws_of_digit hd
          · decide
        have hnq : c ≠ '"' := by
          rcases hcd with hd | rfl
          · exact digit_ne_quote hd
          · decide
        have hnb : c ≠ lbrace := by
          rcases hcd with hd | rfl
          · exact digit_ne_lbrace hd
          · decide
        rw [show renderJson lvl (.jint k) ++ rest = c :: (cs ++ rest) by
          show renderInt k ++ rest = _
          rw [hcons, List.cons_append]]
        unfold parseValue
        rw [skipWs_cons_not_ws _ hnw]
        dsimp only
        rw [if_neg hnq, if_neg hnb, ← List.cons_append, ← hcons]
        exact parseNumber_int k rest hb
      | num m e =>
        have he : 1 ≤ e := hv
        obtain ⟨c, cs, hcons, hcd⟩ := renderFloat_head m e
        have hnw : isWsChar c = false := by
          rcases hcd with hd | rfl
          · exact not_ws_of_digit hd
          · decide
        have hnq : c ≠ '"' := by
          rcases hcd with hd | rfl
          · exact digit_ne_quote hd
          · decide
        have hnb : c ≠ lbrace := by
          rcases hcd with hd | rfl
          · exact digit_ne_lbrace hd
          · decide
        rw [show renderJson lvl (.num m e) ++ rest = c :: (cs ++ rest) by
          show renderFloat m e ++ rest = _
          rw [hcons, List.cons_append]]
        unfold parseValue
        rw [skipWs_cons_not_ws _ hnw]
        dsimp only
        rw [if_neg hnq, if_neg hnb, ← List.cons_append, ← hcons]
        exact parseNumber_float m e he rest hb
      | obj fs =>
        cases fs with
        | nil =>
          rw [show renderJson lvl (.obj []) ++ rest = lbrace :: (rbrace :: rest) by
            show ([lbrace, rbrace] : List Char) ++ rest = _
            simp]
          unfold parseValue
          rw [skipWs_cons_not_ws _ (by decide)]
          dsimp only
          rw [if_neg (by decide), if_pos rfl, skipWs_cons_not_ws _ (by decide)]
          dsimp only
          rw [if_pos rfl]
        | cons f fs2 =>
          obtain ⟨k, v⟩ := f
          have hvm : ValidMembers ((k, v) :: fs2) := hv
          have hk : StrClean k := hvm.1
          have hsize : msize ((k, v) :: fs2) < n := by
            have hj : jsize (.obj ((k, v) :: fs2)) = msize ((k, v) :: fs2) + 1 := rfl
            omega
          obtain ⟨X, hshape, _⟩ := renderMembers_shape lvl k v fs2 hk
          rw [show renderJson lvl (.obj ((k, v) :: fs2)) ++ rest =
              lbrace :: ('\n' :: (renderMembers lvl ((k, v) :: fs2) ++
                '\n' :: (indentChars lvl ++ rbrace :: rest))) by
            show (lbrace :: '\n' :: renderMembers lvl ((k, v) :: fs2) ++
              '\n' :: indentChars lvl ++ [rbrace]) ++ rest = _
            simp [List.append_assoc]]
          unfold parseValue
          rw [skipWs_cons_not_ws _ (by decide)]
          dsimp only
          rw [if_neg (by decide), if_pos rfl]
          have hskipm : ∀ T : List Char,
              skipWs (renderMembers lvl ((k, v) :: fs2) ++ T) =
              '"' :: ((k.data ++ '"' :: (':' :: ' ' ::
                (renderJson (lvl + 1) v ++ X))) ++ T) := by
            intro T
            rw [hshape, List.append_assoc,
              skipWs_ws_append _ _ (indentChars_ws (lvl + 1)), List.cons_append,
              skipWs_cons_not_ws _ (by decide)]
          have hskip2 : skipWs ('\n' :: (renderMembers lvl ((k, v) :: fs2) ++
              '\n' :: (indentChars lvl ++ rbrace :: rest))) =
              skipWs (renderMembers lvl ((k, v) :: fs2) ++
                '\n' :: (indentChars lvl ++ rbrace :: rest)) :=
            skipWs_cons_of_ws _ (by decide)
          rw [hskip2, hskipm]
          dsimp only
          rw [if_neg (by decide)]
          have hcongr : parseMembers n ('"' :: ((k.data ++ '"' :: (':' :: ' ' ::
                (renderJson (lvl + 1) v ++ X))) ++
                '\n' :: (indentChars lvl ++ rbrace :: rest))) =
              parseMembers n (renderMembers lvl ((k, v) :: fs2) ++
                '\n' :: (indentChars lvl ++ rbrace :: rest)) := by
            apply parseMembers_ws_congr
            rw [hskipm, skipWs_cons_not_ws _ (by decide)]
          rw [hcongr, ih.2 ((k, v) :: fs2) hvm (by simp) hsize lvl rest]
          rfl
    · intro ms hvm hne hf lvl rest
      cases ms with
      | nil => exact absurd rfl hne
      | cons f tail =>
        obtain ⟨k, v⟩ := f
        have hk : StrClean k := hvm.1
        have hvj : ValidJson v := hvm.2.1
        have hvt : ValidMembers tail := hvm.2.2
        have hv1 : 1 ≤ jsize v := by
          cases v <;> simp [jsize]
        have hm : msize ((k, v) :: tail) = jsize v + msize tail + 1 := rfl
        have hm2 : 1 ≤ msize tail := by
          cases tail with
          | nil => exact le_refl 1
          | cons f2 fs3 =>
            show 1 ≤ jsize f2.2 + msize fs3 + 1
            omega
        have hszv : jsize v < n := by omega
        have hszt : msize tail < n := by omega
        obtain ⟨X, hshape, hXdesc⟩ := renderMembers_shape lvl k v tail hk
        have hinput : renderMembers lvl ((k, v) :: tail) ++
            '\n' :: (indentChars lvl ++ rbrace :: rest) =
            indentChars (lvl + 1) ++ '"' :: ((k.data ++ '"' :: (':' :: ' ' ::
              (renderJson (lvl + 1) v ++ X))) ++
              '\n' :: (indentChars lvl ++ rbrace :: rest)) := by
          rw [hshape]
          simp [List.append_assoc]
        unfold parseMembers
        rw [hinput, skipWs_ws_append _ _ (indentChars_ws (lvl + 1)),
          skipWs_cons_not_ws _ (by decide)]
        split
        · rename_i cs1 hEq
          injection hEq with hEq1 hEq2
          subst hEq2
          rw [show (k.data ++ '"' :: (':' :: ' ' ::
              (renderJson (lvl + 1) v ++ X))) ++
              '\n' :: (indentChars lvl ++ rbrace :: rest) =
            k.data ++ '"' :: (':' :: ' ' ::
              (renderJson (lvl + 1) v ++ (X ++
              '\n' :: (indentChars lvl ++ rbrace :: rest)))) by simp [List.append_assoc]]
          rw [parseStringBody_clean k.data _ hk]
          dsimp only
          rw [skipWs_cons_not_ws _ (by decide)]
          split
          · rename_i cs3 hEq3
            injection hEq3 with hEq4 hEq5
            subst hEq5
            have hval : parseValue n (' ' :: (renderJson (lvl + 1) v ++ (X ++
                '\n' :: (indentChars lvl ++ rbrace :: rest)))) =
                parseValue n (renderJson (lvl + 1) v ++ (X ++
                  '\n' :: (indentChars lvl ++ rbrace :: rest))) :=
              parseValue_ws_congr n (skipWs_cons_of_ws _ (by decide))
            rw [hval]
            rcases hXdesc with ⟨htail, hX⟩ | ⟨f2, fs3, htail, hX⟩
            · subst htail
              subst hX
              rw [List.nil_append]
              rw [ih.1 v hvj hszv (lvl + 1) ('\n' :: (indentChars lvl ++ rbrace :: rest))
                ⟨by decide, by decide⟩]
              dsimp only
              rw [skipWs_newline_indent, skipWs_cons_not_ws _ (by decide)]
              split
              · rename_i cs5 hEq6
                exact absurd (List.head_eq_of_cons_eq hEq6) (by decide)
              · rename_i c5 cs5 hne5 hEq6
                injection hEq6 with hEq7 hEq8
                subst hEq7
                subst hEq8
                rw [if_pos rfl]
              · rename_i hEq6
                exact absurd hEq6 (List.cons_ne_nil _ _)
            · subst htail
              subst hX
              rw [show (',' :: '\n' :: renderMembers lvl (f2 :: fs3)) ++
                  '\n' :: (indentChars lvl ++ rbrace :: rest) =
                ',' :: ('\n' :: (renderMembers lvl (f2 :: fs3) ++
                  '\n' :: (indentChars lvl ++ rbrace :: rest))) by simp]
              rw [ih.1 v hvj hszv (lvl + 1)
                (',' :: ('\n' :: (renderMembers lvl (f2 :: fs3) ++
                  '\n' :: (indentChars lvl ++ rbrace :: rest)))) ⟨by decide, by decide⟩]
              dsimp only
              rw [skipWs_cons_not_ws _ (by decide)]
              split
              · rename_i cs5 hEq6
                injection hEq6 with hEq7 hEq8
                subst hEq8
                have hmemb : parseMembers n ('\n' :: (renderMembers lvl (f2 :: fs3) ++
                    '\n' :: (indentChars lvl ++ rbrace :: rest))) =
                    parseMembers n (renderMembers lvl (f2 :: fs3) ++
                      '\n' :: (indentChars lvl ++ rbrace :: rest)) :=
                  parseMembers_ws_congr n (skipWs_cons_of_ws _ (by decide))
                rw [hmemb, ih.2 (f2 :: fs3) hvt (by simp) hszt lvl rest]
                rfl
              · rename_i c5 cs5 hne5 hEq6
                injection hEq6 with hEq7 hEq8
                exact (hne5 hEq7.symm).elim
              · rename_i hEq6
                exact absurd hEq6 (List.cons_ne_nil _ _)
          · rename_i hnm3
            exact (hnm3 (' ' :: (renderJson (lvl + 1) v ++ (X ++
              '\n' :: (indentChars lvl ++ rbrace :: rest)))) rfl).elim
        · rename_i hnm1
          exact (hnm1 ((k.data ++ '"' :: (':' :: ' ' ::
            (renderJson (lvl + 1) v ++ X))) ++
            '\n' :: (indentChars lvl ++ rbrace :: rest)) rfl).elim

/-- The parser fuel bound: a JSON tree is no larger than its rendering. -/
theorem jsize_render_length : ∀ N : ℕ,
    (∀ j, jsize j < N → ∀ lvl, jsize j ≤ (renderJson lvl j).length) ∧
    (∀ ms, ms ≠ [] → msize ms < N → ∀ lvl, msize ms ≤ (renderMembers lvl ms).length) := by
  intro N
  induction N with
  | zero =>
    constructor
    · intro j hf
      omega
    · intro ms _ hf
      omega
  | succ n ih =>
    constructor
    · intro j hf lvl
      cases j with
      | str s =>
        show jsize (.str s) ≤ (renderString s).length
        unfold renderString
        simp [List.length_append, jsize]
      | jint k =>
        obtain ⟨c, cs, hcons, _⟩ := renderInt_head k
        show jsize (.jint k) ≤ (renderInt k).length
        rw [hcons]
        simp [jsize]
      | num m e =>
        obtain ⟨c, cs, hcons, _⟩ := renderFloat_head m e
        show jsize (.num m e) ≤ (renderFloat m e).length
        rw [hcons]
        simp [jsize]
      | obj fs =>
        cases fs with
        | nil =>
          show msize [] + 1 ≤ ([lbrace, rbrace] : List Char).length
          simp [msize]
        | cons f fs2 =>
          have hj : jsize (.obj (f :: fs2)) = msize (f :: fs2) + 1 := rfl
          have hm := ih.2 (f :: fs2) (by simp) (by omega) lvl
          show msize (f :: fs2) + 1 ≤
            (lbrace :: '\n' :: renderMembers lvl (f :: fs2) ++
              '\n' :: indentChars lvl ++ [rbrace]).length
          simp only [List.length_append, List.length_cons, List.length_singleton]
          omega
    · intro ms hne hf lvl
      cases ms with
      | nil => exact absurd rfl hne
      | cons f tail =>
        obtain ⟨k, v⟩ := f
        cases tail with
        | nil =>
          have hm : msize [(k, v)] = jsize v + 2 := rfl
          have hv := ih.1 v (by omega) (lvl + 1)
          show msize [(k, v)] ≤
            (indentChars (lvl + 1) ++ renderString k ++
              ':' :: ' ' :: renderJson (lvl + 1) v).length
          unfold renderString
          simp only [List.length_append, List.length_cons]
          omega
        | cons f2 fs3 =>
          have hm : msize ((k, v) :: f2 :: fs3) = jsize v + msize (f2 :: fs3) + 1 := rfl
          have hm2 : 1 ≤ msize (f2 :: fs3) := by
            show 1 ≤ jsize f2.2 + msize fs3 + 1
            omega
          have hv := ih.1 v (by omega) (lvl + 1)
          have ht := ih.2 (f2 :: fs3) (by simp) (by omega) lvl
          show msize ((k, v) :: f2 :: fs3) ≤
            (indentChars (lvl + 1) ++ renderString k ++
              ':' :: ' ' :: renderJson (lvl + 1) v ++
              ',' :: '\n' :: renderMembers lvl (f2 :: fs3)).length
          unfold renderString
          simp only [List.length_append, List.length_cons]
          omega

theorem parseJson_dumps (j : Json) (hv : ValidJson j) : parseJson (jsonDumps j) = some j := by
  unfold parseJson jsonDumps
  have hsize : jsize j < (renderJson 0 j).length + 1 := by
    have := (jsize_render_length (jsize j + 1)).1 j (by omega) 0
    omega
  have hparse : parseValue ((renderJson 0 j).length + 1) (renderJson 0 j ++ []) =
      some (j, []) :=
    (parse_render_main _).1 j hv hsize 0 [] trivial
  rw [List.append_nil] at hparse
  show (match parseValue ((renderJson 0 j).length + 1) (renderJson 0 j) with
    | some (j, rest) => if skipWs rest = [] then some j else none
    | none => none) = some j
  rw [hparse]
  rfl

theorem decExp_ge_one (q : ℚ) : 1 ≤ decExp q := by
  unfold decExp
  omega

theorem decExp_spec (q : ℚ) (h : IsDec4 q) :
    ((q * 10 ^ decExp q).num : ℚ) / 10 ^ decExp q = q := by
  obtain ⟨m, rfl⟩ := h
  have hval : ((m : ℚ) / 10 ^ 4) * 10 ^ (3 + 1) = (m : ℚ) := by
    norm_num
  have hpred : ((((m : ℚ) / 10 ^ 4) * 10 ^ (3 + 1)).den == 1) = true := by
    rw [hval]
    simp [Rat.den_intCast]
  have hex : (((List.range 64).find?
      (fun e => ((((m : ℚ) / 10 ^ 4) * 10 ^ (e + 1)).den == 1))).isSome) := by
    by_contra hno
    have hnone : ((List.range 64).find?
        (fun e => ((((m : ℚ) / 10 ^ 4) * 10 ^ (e + 1)).den == 1))) = none := by
      cases hfind : ((List.range 64).find?
          (fun e => ((((m : ℚ) / 10 ^ 4) * 10 ^ (e + 1)).den == 1))) with
      | none => rfl
      | some x => rw [hfind] at hno; simp at hno
    have := List.find?_eq_none.mp hnone 3 (by simp)
    exact this hpred
  obtain ⟨e0, he0⟩ := Option.isSome_iff_exists.mp hex
  have hpe := List.find?_some he0
  have hde : decExp ((m : ℚ) / 10 ^ 4) = e0 + 1 := by
    unfold decExp
    rw [he0]
    rfl
  rw [hde]
  have hden : ((((m : ℚ) / 10 ^ 4) * 10 ^ (e0 + 1)).den) = 1 := by
    simpa using hpe
  have hnum : (((((m : ℚ) / 10 ^ 4) * 10 ^ (e0 + 1)).num : ℚ)) =
      ((m : ℚ) / 10 ^ 4) * 10 ^ (e0 + 1) := (Rat.den_eq_one_iff _).mp hden
  rw [hnum]
  have hpow : (10 : ℚ) ^ (e0 + 1) ≠ 0 := by positivity
  field_simp
  ring

theorem validMembers_byModel (l : List (String × ByModelEntry))
    (h : ∀ kv ∈ l, StrClean kv.1) :
    ValidMembers (l.map (fun kv => (kv.1, entryToJson kv.2))) := by
  induction l with
  | nil => trivial
  | cons kv l2 ih =>
    refine ⟨h kv (List.mem_cons_self _ _), ?_, ih (fun x hx => h x (List.mem_cons_of_mem _ hx))⟩
    show ValidMembers [("invocations", Json.jint kv.2.invocations),
      ("inputTokens", Json.jint kv.2.inputTokens),
      ("outputTokens", Json.jint kv.2.outputTokens),
      ("cost", qToNum kv.2.cost),
      ("avgLatency", qToNum kv.2.avgLatency),
      ("errorCount", Json.jint kv.2.errorCount)]
    exact ⟨by decide, trivial, by decide, trivial, by decide, trivial,
      by decide, decExp_ge_one _, by decide, decExp_ge_one _, by decide, trivial, trivial⟩

theorem validJson_reportToJson (r : UsageReport) (h : ValidReport r) :
    ValidJson (reportToJson r) := by
  obtain ⟨h1, h2, h3, h4, h5, h6, h7, h8⟩ := h
  show ValidMembers _
  refine ⟨by decide, ?_, by decide, ?_, by decide, ?_, by decide, ?_, by decide, ?_, trivial⟩
  · exact ⟨by decide, h1, by decide, h2, by decide, trivial, trivial⟩
  · exact ⟨by decide, trivial, by decide, trivial, by decide, trivial,
      by decide, decExp_ge_one _, trivial⟩
  · exact validMembers_byModel r.by_model (fun kv hkv => (h8 kv hkv).1)
  · exact ⟨by decide, trivial, by decide, decExp_ge_one _, trivial⟩
  · exact ⟨by decide, decExp_ge_one _, by decide, decExp_ge_one _,
      by decide, trivial, by decide, decExp_ge_one _, trivial⟩

theorem decodeEntry_entryToJson (k : String) (e : ByModelEntry)
    (hc : IsDec4 e.cost) (ha : IsDec4 e.avgLatency) :
    decodeEntry (k, entryToJson e) = some (k, e) := by
  have hc2 := decExp_spec e.cost hc
  have ha2 := decExp_spec e.avgLatency ha
  show some (k,
    { invocations := e.invocations, inputTokens := e.inputTokens,
      outputTokens := e.outputTokens,
      cost := (((e.cost * 10 ^ decExp e.cost).num : ℚ)) / 10 ^ decExp e.cost,
      avgLatency := (((e.avgLatency * 10 ^ decExp e.avgLatency).num : ℚ)) /
        10 ^ decExp e.avgLatency,
      errorCount := e.errorCount }) = some (k, e)
  rw [hc2, ha2]

theorem mapM_decodeEntry (l : List (String × ByModelEntry))
    (h : ∀ kv ∈ l, StrClean kv.1 ∧ IsDec4 kv.2.cost ∧ IsDec4 kv.2.avgLatency) :
    (l.map (fun kv => (kv.1, entryToJson kv.2))).mapM decodeEntry = some l := by
  induction l with
  | nil => rfl
  | cons kv l2 ih =>
    simp only [List.map_cons, List.mapM_cons]
    rw [decodeEntry_entryToJson kv.1 kv.2 (h kv (List.mem_cons_self _ _)).2.1
      (h kv (List.mem_cons_self _ _)).2.2]
    rw [ih (fun x hx => h x (List.mem_cons_of_mem _ hx))]
    rfl

theorem decodeReport_reportToJson (r : UsageReport) (h : ValidReport r) :
    decodeReport (reportToJson r) = some r := by
  obtain ⟨h1, h2, h3, h4, h5, h6, h7, h8⟩ := h
  have hbm := mapM_decodeEntry r.by_model h8
  have hshow : decodeReport (reportToJson r) =
      Option.map
        (fun bml : List (String × ByModelEntry) =>
          ({ period :=
              { startTime := r.period.startTime
                endTime := r.period.endTime
                durationHours := r.period.durationHours }
             summary :=
              { totalInvocations := r.summary.totalInvocations
                totalInputTokens := r.summary.totalInputTokens
                totalOutputTokens := r.summary.totalOutputTokens
                estimatedCost :=
                  (((r.summary.estimatedCost * 10 ^ decExp r.summary.estimatedCost).num : ℚ)) /
                    10 ^ decExp r.summary.estimatedCost }
             by_model := bml
             projections :=
              { monthlyInvocations := r.projections.monthlyInvocations
                monthlyCost :=
                  (((r.projections.monthlyCost * 10 ^ decExp r.projections.monthlyCost).num : ℚ)) /
                    10 ^ decExp r.projections.monthlyCost }
             performance :=
              { avgLatency :=
                  (((r.performance.avgLatency * 10 ^ decExp r.performance.avgLatency).num : ℚ)) /
                    10 ^ decExp r.performance.avgLatency
                p99Latency :=
                  (((r.performance.p99Latency * 10 ^ decExp r.performance.p99Latency).num : ℚ)) /
                    10 ^ decExp r.performance.p99Latency
                errorCount := r.performance.errorCount
                errorRate :=
                  (((r.performance.errorRate * 10 ^ decExp r.performance.errorRate).num : ℚ)) /
                    10 ^ decExp r.performance.errorRate } } : UsageReport))
        ((r.by_model.map (fun kv => (kv.1, entryToJson kv.2))).mapM decodeEntry) := rfl
  rw [hshow, hbm, decExp_spec _ h3, decExp_spec _ h4, decExp_spec _ h5, decExp_spec _ h6,
    decExp_spec _ h7]
  rfl

/-- C9: parsing the structured-mode output of the formatter yields the report
back unchanged — every field round-trips losslessly. -/
theorem c9_structured_roundtrip (r : UsageReport) (h : ValidReport r) :
    (match format_report r "json" with
     | .ok s => parseReport s
     | .error _ => none) = some r := by
  have hjson : format_report r "json" = .ok (jsonDumps (reportToJson r)) := by
    unfold format_report
    rw [show pyLower "json" = "json" from by decide, if_pos rfl]
  rw [hjson]
  show parseReport (jsonDumps (reportToJson r)) = some r
  unfold parseReport
  rw [parseJson_dumps _ (validJson_reportToJson r h)]
  show decodeReport (reportToJson r) = some r
  exact decodeReport_reportToJson r h

theorem sampleReport_valid : ValidReport sampleReport := by
  refine ⟨by decide, by decide, ⟨4500, rfl⟩, ⟨135000, rfl⟩, ⟨25000, rfl⟩,
    ⟨25000, rfl⟩, ⟨0, rfl⟩, ?_⟩
  intro kv hkv
  simp only [sampleReport, List.mem_singleton] at hkv
  subst hkv
  exact ⟨by decide, ⟨4500, rfl⟩, ⟨25000, rfl⟩⟩

/-- C9 witness: the round-trip theorem applied at the concrete valid report. -/
theorem c9_witness :
    ValidReport sampleReport ∧
    (match format_report sampleReport "json" with
     | .ok s => parseReport s
     | .error _ => none) = some sampleReport :=
  ⟨sampleReport_valid, c9_structured_roundtrip sampleReport sampleReport_valid⟩

end UsageReport6
